import Mathlib

/-!
# provider-git: the REST client for deploy keys

A shallow embedding of `internal/clients/git/api.go`, `internal/clients/rest/repository.go`
and `internal/clients/git.go`, together with the parts of the Go standard library the
function `Client.CreateRepository` calls (`net/url.PathEscape`), and the properties of
the client that follow from the code.

Go strings are byte sequences; they are modelled as lists of bytes, so that every Go
string (valid UTF-8 or not) is a value of `GoString`.
-/

set_option linter.dupNamespace false

namespace ProviderGit

/-! ## Bytes and strings -/

/-- A Go `byte`. -/
abbrev Byte := Fin 256

/-- A Go `string` or `[]byte`: a finite sequence of arbitrary bytes. -/
abbrev GoString := List Byte

/-- The bytes of a string literal of the source, in UTF-8 as the Go compiler stores it. -/
def lit (s : String) : GoString := s.toUTF8.data.toList.map (fun u => u.val)

/-- A byte literal of the source such as `'a'` (an ASCII character). -/
def ch (c : Char) : Byte := Fin.ofNat c.toNat

/-! ## net/url: `PathEscape` -/

/-- The `encoding` modes of net/url. -/
inductive encoding
  | encodePath
  | encodePathSegment
  | encodeHost
  | encodeZone
  | encodeUserPassword
  | encodeQueryComponent
  | encodeFragment
  deriving DecidableEq, Repr

/-- The bytes net/url lets through unescaped in a host (first `switch` of `shouldEscape`):
`! $ & ' ( ) * + , ; = : [ ] < > "`, the apostrophe being byte 39 and the quotation mark
byte 34. -/
def hostBytes : List Byte :=
  [ch '!', ch '$', ch '&', 39, ch '(', ch ')', ch '*', ch '+', ch ',', ch ';', ch '=', ch ':',
   ch '[', ch ']', ch '<', ch '>', 34]

/-- The reserved characters of RFC 3986 §2.2 that `shouldEscape` treats per mode. -/
def reservedBytes : List Byte :=
  [ch '$', ch '&', ch '+', ch ',', ch '/', ch ':', ch ';', ch '=', ch '?', ch '@']

/-- The function `shouldEscape` of net/url: whether byte `c` is written as `%XX` in the
given mode. -/
def shouldEscape (c : Byte) (mode : encoding) : Bool :=
  if (ch 'a' ≤ c ∧ c ≤ ch 'z') ∨ (ch 'A' ≤ c ∧ c ≤ ch 'Z') ∨ (ch '0' ≤ c ∧ c ≤ ch '9') then
    false
  else if (mode = .encodeHost ∨ mode = .encodeZone) ∧ c ∈ hostBytes then
    false
  else if c ∈ [ch '-', ch '_', ch '.', ch '~'] then
    false
  else if c ∈ reservedBytes then
    match mode with
    | .encodePath => c == ch '?'
    | .encodePathSegment => c == ch '/' || c == ch ';' || c == ch ',' || c == ch '?'
    | .encodeUserPassword => c == ch '@' || c == ch '/' || c == ch '?' || c == ch ':'
    | .encodeQueryComponent => true
    | .encodeFragment => false
    | .encodeHost => true
    | .encodeZone => true
  else if mode = .encodeFragment ∧ c ∈ [ch '!', ch '(', ch ')', ch '*'] then
    false
  else
    true

/-- The table `upperhex` of net/url. -/
def upperhex : GoString := lit "0123456789ABCDEF"

/-- What the main loop of `escape` writes for one input byte. -/
def escapeByte (c : Byte) (mode : encoding) : GoString :=
  if c = ch ' ' ∧ mode = .encodeQueryComponent then
    [ch '+']
  else if shouldEscape c mode then
    [ch '%', upperhex.getD (c.val >>> 4) 0, upperhex.getD (c.val &&& 15) 0]
  else
    [c]

/-- The main loop of `escape` (the second `for` over `s`, appending to the buffer `t`). -/
def escapeLoop (mode : encoding) : GoString → GoString
  | [] => []
  | c :: s => escapeByte c mode ++ escapeLoop mode s

/-- The function `escape` of net/url: count what has to be escaped, return `s` itself when
nothing has, replace spaces by `+` when only spaces have, and run the main loop otherwise. -/
def escape (s : GoString) (mode : encoding) : GoString :=
  let spaceCount :=
    s.countP (fun c => shouldEscape c mode && (c == ch ' ' && mode == .encodeQueryComponent))
  let hexCount :=
    s.countP (fun c => shouldEscape c mode && !(c == ch ' ' && mode == .encodeQueryComponent))
  if spaceCount = 0 ∧ hexCount = 0 then
    s
  else if hexCount = 0 then
    s.map (fun c => if c = ch ' ' then ch '+' else c)
  else
    escapeLoop mode s

/-- The function `url.PathEscape`. -/
def PathEscape (s : GoString) : GoString := escape s .encodePathSegment

/-! ## internal/clients/git/api.go -/

/-- The struct `git.Repo`. -/
structure Repo where
  ProjectKey : GoString
  Repo : GoString
  deriving DecidableEq, Repr

/-- The constant `git.PermissionRepoWrite`. -/
def PermissionRepoWrite : GoString := lit "REPO_WRITE"

/-- The constant `git.PermissionRepoRead`. -/
def PermissionRepoRead : GoString := lit "REPO_READ"

/-- The struct `git.AccessKey`; its default value is Go's zero value `git.AccessKey{}`. -/
structure AccessKey where
  Key : GoString := []
  Label : GoString := []
  ID : Int := 0
  Permission : GoString := []
  deriving DecidableEq, Repr

/-- Go error values: the sentinel `git.ErrNotFound`, any other error value, and an error
wrapping another one (`fmt.Errorf` with `%w`). -/
inductive GoError
  | ErrNotFound
  | other (msg : String)
  | wrap (msg : String) (inner : GoError)
  deriving DecidableEq, Repr

/-- The function `errors.Is` on these error values: `err` or an error in its chain of
wrapped errors equals `target`. -/
def errorsIs (err target : GoError) : Bool :=
  if err = target then true
  else
    match err with
    | .wrap _ inner => errorsIs inner target
    | _ => false

/-! ## internal/clients/rest/repository.go: the wire types -/

/-- The struct `PublicSSHKey`. -/
structure PublicSSHKey where
  Text : GoString := []
  Label : GoString := []
  deriving DecidableEq, Repr

/-- The struct `UploadKeyPayload`. -/
structure UploadKeyPayload where
  Key : PublicSSHKey := {}
  Permission : GoString := []
  deriving DecidableEq, Repr

/-- The struct `KeyInfo`. -/
structure KeyInfo where
  ID : Int := 0
  Text : GoString := []
  Label : GoString := []
  deriving DecidableEq, Repr

/-- The struct `ProjectInfo`. -/
structure ProjectInfo where
  Key : GoString := []
  deriving DecidableEq, Repr

/-- The struct `RepositoryInfo`. -/
structure RepositoryInfo where
  Name : GoString := []
  ID : Int := 0
  Project : ProjectInfo := {}
  deriving DecidableEq, Repr

/-- The struct `KeyDescription`; its default value is Go's zero value. -/
structure KeyDescription where
  Key : KeyInfo := {}
  Repository : RepositoryInfo := {}
  Permission : GoString := []
  deriving DecidableEq, Repr

/-- The values `json.Marshal` is given by `CreateRepository`, as it walks them by reflection:
a Go string, with its bytes as they are, and a struct, as the list of its fields under their
JSON names, in order. The text written for such a value, in which strings are quoted and
escaped, is `JSON.encode`. -/
inductive JSON
  | str (s : GoString)
  | obj (members : List (GoString × JSON))

/-- A `PublicSSHKey` as `json.Marshal` walks it: its two fields under the names of their
`json:"text"` and `json:"label"` tags, in the order of the declaration. -/
def PublicSSHKey.toJSON (k : PublicSSHKey) : JSON :=
  .obj [(lit "text", .str k.Text), (lit "label", .str k.Label)]

/-- An `UploadKeyPayload` as `json.Marshal` walks it: its two fields under the names of
their `json:"key"` and `json:"permission"` tags, in the order of the declaration. -/
def UploadKeyPayload.toJSON (p : UploadKeyPayload) : JSON :=
  .obj [(lit "key", p.Key.toJSON), (lit "permission", .str p.Permission)]

/-! ## unicode/utf8: `DecodeRuneInString` -/

/-- The constant `utf8.RuneError`, U+FFFD. -/
def RuneError : Nat := 0xFFFD

/-- The constant `utf8.RuneSelf`: bytes below it are single-byte runes. -/
def RuneSelf : Nat := 0x80

/-- The constant `utf8.UTFMax`: the longest encoding of a rune, in bytes. -/
def UTFMax : Nat := 4

/-- The table `first` of unicode/utf8, by the ranges of its rows: `0xF0` (`as`) for ASCII,
`0xF1` (`xx`) for a byte that cannot start a rune, and otherwise the size of the encoding
in the low bits and the index of the accept range of the second byte in the high bits. -/
def first (b : Byte) : Nat :=
  if b.val < 0x80 then 0xF0
  else if b.val < 0xC2 then 0xF1
  else if b.val < 0xE0 then 0x02
  else if b.val = 0xE0 then 0x13
  else if b.val < 0xED then 0x03
  else if b.val = 0xED then 0x23
  else if b.val < 0xF0 then 0x03
  else if b.val = 0xF0 then 0x34
  else if b.val < 0xF4 then 0x04
  else if b.val = 0xF4 then 0x44
  else 0xF1

/-- The table `acceptRanges` of unicode/utf8: the lowest and highest second byte. -/
def acceptRanges (i : Nat) : Nat × Nat :=
  match i with
  | 0 => (0x80, 0xBF)
  | 1 => (0xA0, 0xBF)
  | 2 => (0x80, 0x9F)
  | 3 => (0x90, 0xBF)
  | 4 => (0x80, 0x8F)
  | _ => (0, 0)

/-- The function `utf8.DecodeRuneInString`: the first rune of `s` and its width in bytes;
`(RuneError, 1)` for an encoding that is not valid, `(RuneError, 0)` for the empty string.
For `x >= as` the source selects with a mask that is all ones when the low bit of `x` is set
(`xx`) and zero otherwise (`as`); that selection is the test `x % 2 = 1` here. -/
def DecodeRuneInString (s : GoString) : Nat × Nat :=
  match s with
  | [] => (RuneError, 0)
  | s0 :: _ =>
    let x := first s0
    if 0xF0 ≤ x then
      (if x % 2 = 1 then RuneError else s0.val, 1)
    else
      let sz := x &&& 7
      let accept := acceptRanges (x >>> 4)
      if s.length < sz then (RuneError, 1)
      else
        let s1 := (s.getD 1 0).val
        if s1 < accept.1 ∨ accept.2 < s1 then (RuneError, 1)
        else if sz ≤ 2 then ((s0.val &&& 0x1F) <<< 6 ||| (s1 &&& 0x3F), 2)
        else
          let s2 := (s.getD 2 0).val
          if s2 < 0x80 ∨ 0xBF < s2 then (RuneError, 1)
          else if sz ≤ 3 then
            ((s0.val &&& 0x0F) <<< 12 ||| (s1 &&& 0x3F) <<< 6 ||| (s2 &&& 0x3F), 3)
          else
            let s3 := (s.getD 3 0).val
            if s3 < 0x80 ∨ 0xBF < s3 then (RuneError, 1)
            else
              ((s0.val &&& 0x07) <<< 18 ||| (s1 &&& 0x3F) <<< 12 ||| (s2 &&& 0x3F) <<< 6 |||
                (s3 &&& 0x3F), 4)

/-! ## encoding/json: writing a value -/

/-- The table `hex` of encoding/json. -/
def hex : GoString := lit "0123456789abcdef"

/-- The table `htmlSafeSet` of encoding/json: the ASCII bytes written as they are, which are
those from the space on other than `"`, `&`, `<`, `>` and `\`. -/
def htmlSafeSet (b : Byte) : Bool :=
  decide (0x20 ≤ b.val ∧ b.val < 0x80 ∧ b ∉ [34, ch '&', ch '<', ch '>', 92])

/-- What `appendString` writes for an ASCII byte outside `htmlSafeSet` (its `switch b`).
Releases before Go 1.22 write `\u0008` and `\u000c` where this one writes `\b` and `\f`;
both forms stand for the same byte. -/
def appendEscape (b : Byte) : GoString :=
  if b = 92 ∨ b = 34 then [92, b]
  else if b = 8 then [92, ch 'b']
  else if b = 12 then [92, ch 'f']
  else if b = 10 then [92, ch 'n']
  else if b = 13 then [92, ch 'r']
  else if b = 9 then [92, ch 't']
  else [92, ch 'u', ch '0', ch '0', hex.getD (b.val >>> 4) 0, hex.getD (b.val &&& 0xF) 0]

/-- One turn of the loop of `appendString` with `escapeHTML` set, at the position where
`src` starts: the bytes that reach `dst` for the rune there, and by how much `i` advances. -/
def appendStringStep (src : GoString) : GoString × Nat :=
  match src with
  | [] => ([], 0)
  | b :: _ =>
    if b.val < RuneSelf then
      if htmlSafeSet b then ([b], 1) else (appendEscape b, 1)
    else
      let r := DecodeRuneInString (src.take UTFMax)
      if r.1 = RuneError ∧ r.2 = 1 then
        ([92, ch 'u', ch 'f', ch 'f', ch 'f', ch 'd'], r.2)
      else if r.1 = 0x2028 ∨ r.1 = 0x2029 then
        ([92, ch 'u', ch '2', ch '0', ch '2', hex.getD (r.1 &&& 0xF) 0], r.2)
      else
        (src.take r.2, r.2)

/-- The loop of `appendString`: at most `fuel` turns over what is left of the source. Every
turn on a string that is not empty advances, so `src.length` turns reach the end. -/
def appendStringLoop : Nat → GoString → GoString
  | 0, _ => []
  | fuel + 1, src =>
    if src = [] then []
    else (appendStringStep src).1 ++ appendStringLoop fuel (src.drop (appendStringStep src).2)

/-- The function `appendString` of encoding/json with `escapeHTML` set, as `json.Marshal`
calls it: the JSON string literal for a Go string. -/
def appendString (src : GoString) : GoString :=
  [34] ++ appendStringLoop src.length src ++ [34]

mutual
/-- The text encoding/json writes for a value: a string through `appendString`, a struct as
`{`, its fields separated by `,`, and `}`. -/
def JSON.encode : JSON → GoString
  | .str s => appendString s
  | .obj [] => [123, 125]
  | .obj (m :: members) => [123] ++ JSON.encodeMembers (m :: members) ++ [125]
/-- The fields of a struct: each is its name as a string literal, `:`, and its value. -/
def JSON.encodeMembers : List (GoString × JSON) → GoString
  | [] => []
  | [(k, v)] => appendString k ++ [ch ':'] ++ JSON.encode v
  | (k, v) :: m :: rest =>
    appendString k ++ [ch ':'] ++ JSON.encode v ++ [ch ','] ++ JSON.encodeMembers (m :: rest)
end

/-- The function `json.Marshal` on a value of these shapes, for which it has no error to
return. -/
def Marshal (j : JSON) : Except GoError GoString := .ok j.encode

/-! ## The meaning of a JSON string literal -/

/-- The value of a hexadecimal digit. -/
def hexVal (b : Byte) : Option Nat :=
  if ch '0' ≤ b ∧ b ≤ ch '9' then some (b.val - 48)
  else if ch 'a' ≤ b ∧ b ≤ ch 'f' then some (b.val - 87)
  else if ch 'A' ≤ b ∧ b ≤ ch 'F' then some (b.val - 55)
  else none

/-- The UTF-8 encoding of a code point (RFC 3629). -/
def encodeRune (c : Nat) : GoString :=
  if c < 0x80 then [Fin.ofNat c]
  else if c < 0x800 then [Fin.ofNat (0xC0 + c / 64), Fin.ofNat (0x80 + c % 64)]
  else if c < 0x10000 then
    [Fin.ofNat (0xE0 + c / 4096), Fin.ofNat (0x80 + c / 64 % 64), Fin.ofNat (0x80 + c % 64)]
  else
    [Fin.ofNat (0xF0 + c / 262144 % 8), Fin.ofNat (0x80 + c / 4096 % 64),
     Fin.ofNat (0x80 + c / 64 % 64), Fin.ofNat (0x80 + c % 64)]

/-- The byte a two-character escape of RFC 8259 §7 stands for, by its second character. -/
def unescape (e : Byte) : Option Byte :=
  if e = 34 then some 34
  else if e = 92 then some 92
  else if e = ch '/' then some (ch '/')
  else if e = ch 'b' then some 8
  else if e = ch 'f' then some 12
  else if e = ch 'n' then some 10
  else if e = ch 'r' then some 13
  else if e = ch 't' then some 9
  else none

/-- The string that the rest of a JSON string literal, after its opening quotation mark,
stands for (RFC 8259 §7): bytes up to the closing quotation mark, which ends the text, with
the two-character escapes and `\uXXXX` replaced by what they stand for. An escape for a
surrogate code unit is given no meaning here. -/
def unquoteBody : GoString → Option GoString
  | [] => none
  | b :: rest =>
    if b = 34 then
      if rest = [] then some [] else none
    else if b = 92 then
      match rest with
      | [] => none
      | e :: rest1 =>
        if e = ch 'u' then
          match rest1 with
          | h1 :: h2 :: h3 :: h4 :: rest2 =>
            match hexVal h1, hexVal h2, hexVal h3, hexVal h4 with
            | some d1, some d2, some d3, some d4 =>
              if 0xD800 ≤ d1 * 4096 + d2 * 256 + d3 * 16 + d4 ∧
                  d1 * 4096 + d2 * 256 + d3 * 16 + d4 < 0xE000 then none
              else
                (unquoteBody rest2).map
                  (fun r => encodeRune (d1 * 4096 + d2 * 256 + d3 * 16 + d4) ++ r)
            | _, _, _, _ => none
          | _ => none
        else
          match unescape e with
          | some x => (unquoteBody rest1).map (fun r => x :: r)
          | none => none
    else (unquoteBody rest).map (fun r => b :: r)

/-- The string a JSON string literal stands for. -/
def unquote : GoString → Option GoString
  | [] => none
  | b :: rest => if b = 34 then unquoteBody rest else none

/-- Walking a string rune by rune with `DecodeRuneInString`, for at most `fuel` runes: no
rune is an encoding error. -/
def validLoop : Nat → GoString → Bool
  | 0, src => decide (src = [])
  | fuel + 1, src =>
    if src = [] then true
    else if (DecodeRuneInString src).1 = RuneError ∧ (DecodeRuneInString src).2 = 1 then false
    else validLoop fuel (src.drop (DecodeRuneInString src).2)

/-- Valid UTF-8, as `utf8.ValidString` reports it: the string consists entirely of valid
UTF-8-encoded runes. -/
def ValidString (s : GoString) : Bool := validLoop s.length s

/-- The text of the upload payload for a key text, a label and a permission already written
as string literals: `{"key":{"text":T,"label":L},"permission":P}`. -/
def payloadText (t l p : GoString) : GoString :=
  lit "\x7b\"key\":\x7b\"text\":" ++ t ++ lit ",\"label\":" ++ l ++
    lit "\x7d,\"permission\":" ++ p ++ lit "\x7d"

/-! ## The client and its collaborators -/

/-- A `context.Context` value, identified by a handle. -/
structure Context where
  handle : Nat
  deriving DecidableEq, Repr

/-- A `*tls.Config` that is not nil, identified by the address it points to. -/
structure TLSConfig where
  addr : Nat
  deriving DecidableEq, Repr

/-- The `http.Transport` that `NewClient` builds: the one field it sets, every other field
being zero. `none` is the nil pointer. -/
structure HTTPTransport where
  TLSClientConfig : Option TLSConfig
  deriving DecidableEq, Repr

/-- The `http.Client` that `NewClient` builds: the one field it sets. -/
structure HTTPClient where
  Transport : HTTPTransport
  deriving DecidableEq, Repr

/-- Modelled from the spec: the declaration of the struct `rest.Client` is not among the
sources. Its fields are the three that the composite literal in `NewClient` sets and that
`CreateRepository` reads (`c.BaseURL`): the token and base URL the spec's Transport is
wrapped with, and the HTTP client it owns. -/
structure Client where
  Token : GoString
  BaseURL : GoString
  HTTPClient : HTTPClient
  deriving DecidableEq, Repr

/-- The constant `http.MethodPost`. -/
def MethodPost : GoString := lit "POST"

/-- The `*http.Request` that `http.NewRequestWithContext` returns when it succeeds: a
request for the given method and URL, with the given body, bound to the given context. -/
structure Request where
  ctx : Context
  Method : GoString
  URL : GoString
  Body : GoString
  deriving DecidableEq, Repr

/-- The collaborators of `CreateRepository` whose code is outside the sources. -/
structure Env where
  /-- Function `json.Marshal` on the value it is given: the text, or an error. What the
  library does for the values of this client is `Marshal`. -/
  jsonMarshal : JSON → Except GoError GoString
  /-- Function `http.NewRequestWithContext`: the error it returns for a context, method, URL
  and body (a method or URL it rejects), or `none` when it returns a request. -/
  newRequestErr : Context → GoString → GoString → GoString → Option GoError
  /-- Method `Client.sendRequest`, which is not among the sources: from the client, the
  request and the value its second argument points to, the value it leaves there and the
  error it returns (`none` is nil). -/
  sendRequest : Client → Request → KeyDescription → KeyDescription × Option GoError

/-- The calls `CreateRepository` makes to its collaborators, with their arguments. -/
inductive Call
  | jsonMarshal (v : UploadKeyPayload)
  | newRequestWithContext (ctx : Context) (method url body : GoString)
  | sendRequest (req : Request)
  deriving DecidableEq, Repr

/-- What a call of `CreateRepository` does: the two values it returns (`err = none` is a nil
error) and the calls it made, in order. -/
structure Outcome where
  result : AccessKey
  err : Option GoError
  calls : List Call
  deriving DecidableEq, Repr

/-- The URL `CreateRepository` builds (source lines 44-45); `fmt.Sprintf` puts the two
escaped identifiers in place of the two `%s` verbs. -/
def requestURL (c : Client) (repo : Repo) : GoString :=
  c.BaseURL ++ (lit "/rest/keys/1.0/projects/" ++ PathEscape repo.ProjectKey ++
    lit "/repos/" ++ PathEscape repo.Repo ++ lit "/ssh")

/-- The payload `CreateRepository` builds from the key (source lines 31-37). -/
def uploadKeyPayload (key : AccessKey) : UploadKeyPayload :=
  { Key := { Text := key.Key, Label := key.Label }, Permission := key.Permission }

/-- The `AccessKey` that `CreateRepository` builds from the decoded response (source lines
56-61). -/
def accessKeyOf (response : KeyDescription) : AccessKey :=
  { ID := response.Key.ID
    Key := response.Key.Text
    Label := response.Key.Label
    Permission := response.Permission }

/-- The method `(*Client).CreateRepository`. -/
def CreateRepository (env : Env) (c : Client) (ctx : Context) (repo : Repo)
    (key : AccessKey) : Outcome :=
  let payload := uploadKeyPayload key
  match env.jsonMarshal payload.toJSON with
  | .error err => { result := {}, err := some err, calls := [.jsonMarshal payload] }
  | .ok marshalledPayload =>
    let url := requestURL c repo
    match env.newRequestErr ctx MethodPost url marshalledPayload with
    | some err =>
      { result := {}, err := some err
        calls := [.jsonMarshal payload,
                  .newRequestWithContext ctx MethodPost url marshalledPayload] }
    | none =>
      let req : Request :=
        { ctx := ctx, Method := MethodPost, URL := url, Body := marshalledPayload }
      let response : KeyDescription := {}
      match env.sendRequest c req response with
      | (_, some err) =>
        { result := {}, err := some err
          calls := [.jsonMarshal payload,
                    .newRequestWithContext ctx MethodPost url marshalledPayload,
                    .sendRequest req] }
      | (response, none) =>
        { result := accessKeyOf response, err := none
          calls := [.jsonMarshal payload,
                    .newRequestWithContext ctx MethodPost url marshalledPayload,
                    .sendRequest req] }

/-! ## internal/clients/git.go -/

/-- The struct `clients.Config`; a nil `TLSConfig` is `none`. -/
structure Config where
  Token : GoString
  BaseURL : GoString
  TLSConfig : Option TLSConfig
  deriving DecidableEq, Repr

/-- The function `NewClient`. -/
def NewClient (c : Config) : Client :=
  let httpClient : HTTPClient := { Transport := { TLSClientConfig := c.TLSConfig } }
  { Token := c.Token, BaseURL := c.BaseURL, HTTPClient := httpClient }

/-- A value of the interface `git.KeyClientAPI`: the value it holds, whose dynamic type is
`*rest.Client`, the one type of the sources with the method `CreateRepository`. -/
inductive KeyClientAPI
  | restClient (c : Client)
  deriving DecidableEq, Repr

/-- The method `CreateRepository` of the interface, dispatched on the value held. -/
def KeyClientAPI.CreateRepository (api : KeyClientAPI) (env : Env) (ctx : Context)
    (repo : Repo) (key : AccessKey) : Outcome :=
  match api with
  | .restClient c => ProviderGit.CreateRepository env c ctx repo key

/-- The function `NewRepositoryClient`. -/
def NewRepositoryClient (c : Config) : KeyClientAPI :=
  .restClient (NewClient c)

/-! ## The spec's words -/

/-- The constant `http.StatusNotFound`. -/
def StatusNotFound : Nat := 404

/-- An HTTP response as the client sees it: the status code and the body. -/
structure Response where
  StatusCode : Nat
  Body : GoString
  deriving DecidableEq, Repr

/-- Modelled from the spec: the method `Client.sendRequest` is not among the sources. By the
spec (4.2, 4.3 steps 4 to 6, and 7) it issues the request once; a network failure is a
`RequestFailed` error carrying the underlying error; on a non-success status it fails,
"not found" mapping to the sentinel `NotFound` error and every other non-2xx status to
`RequestFailed`; on success it decodes the body into the `KeyDescription`, a malformed body
being a `RequestFailed` error carrying the decode error. Here `roundTrip` is the server as
reached through the HTTP client and `decode` is the JSON decoder; on failure the value
behind the pointer is left as it was. -/
def sendRequest (roundTrip : Client → Request → Except GoError Response)
    (decode : GoString → Except GoError KeyDescription)
    (c : Client) (req : Request) (v : KeyDescription) : KeyDescription × Option GoError :=
  match roundTrip c req with
  | .error e => (v, some (.wrap "request failed" e))
  | .ok res =>
    if res.StatusCode = StatusNotFound then
      (v, some .ErrNotFound)
    else if res.StatusCode < 200 ∨ 300 ≤ res.StatusCode then
      (v, some (.other "request failed"))
    else
      match decode res.Body with
      | .error e => (v, some (.wrap "request failed" e))
      | .ok d => (d, none)

/-- A path segment in the sense of the spec's path-injection property: a string with no
`/`, `?` or `#` in it. -/
def isSingleSegment (s : GoString) : Prop :=
  ch '/' ∉ s ∧ ch '?' ∉ s ∧ ch '#' ∉ s

/-- A dot segment of RFC 3986 §5.2.4: `.` or `..`. -/
def isDotSegment (s : GoString) : Prop :=
  s = lit "." ∨ s = lit ".."

/-- One of the two recognized permission values. -/
def isRecognizedPermission (p : GoString) : Prop :=
  p = PermissionRepoRead ∨ p = PermissionRepoWrite

/-- The server response of the spec's round-trip property: a `KeyDescription` built from
the field values of an upload payload, with the id the server assigns and the repository
the key was added to. -/
def echoResponse (p : UploadKeyPayload) (n : Int) (r : RepositoryInfo) : KeyDescription :=
  { Key := { ID := n, Text := p.Key.Text, Label := p.Key.Label }
    Repository := r
    Permission := p.Permission }

/-- Whether a call is a call of `sendRequest`. -/
def Call.isSendRequest : Call → Bool
  | .sendRequest _ => true
  | _ => false

/-! ## Concrete collaborators, to run the client on examples -/

/-- A stub environment: serialization is the library's, request construction succeeds, and
`sendRequest` answers every request with the given response and error. -/
def stubEnv (d : KeyDescription) (err : Option GoError) : Env :=
  { jsonMarshal := Marshal
    newRequestErr := fun _ _ _ _ => none
    sendRequest := fun _ _ _ => (d, err) }

/-- A client for the examples. -/
def exampleClient : Client :=
  NewClient { Token := lit "t0k3n", BaseURL := lit "https://git.example.com", TLSConfig := none }

/-- A context for the examples. -/
def exampleCtx : Context := { handle := 1 }

/-- A key for the examples. -/
def exampleKey : AccessKey :=
  { Key := lit "ssh-ed25519 AAAAC3Nz", Label := lit "ci", ID := 0,
    Permission := PermissionRepoRead }

/-! ## Lemmas on `PathEscape` -/

/-- In path-segment mode `escape` is its main loop: the two shortcuts return what the loop
would. -/
theorem escape_pathSegment (s : GoString) :
    escape s .encodePathSegment = escapeLoop .encodePathSegment s := by
  have hloop : ∀ t : GoString,
      t.countP (fun c => shouldEscape c .encodePathSegment) = 0 →
        escapeLoop .encodePathSegment t = t := by
    intro t
    induction t with
    | nil => intro _; rfl
    | cons c t ih =>
      intro h
      rw [List.countP_cons] at h
      have hc : shouldEscape c .encodePathSegment = false := by
        cases hs : shouldEscape c .encodePathSegment with
        | false => rfl
        | true => simp [hs] at h
      have ht : t.countP (fun c => shouldEscape c .encodePathSegment) = 0 := by omega
      simp [escapeLoop, escapeByte, hc, ih ht]
  unfold escape
  simp only [show (encoding.encodePathSegment == encoding.encodeQueryComponent) = false from rfl,
    Bool.and_false, Bool.not_false, Bool.and_true, List.countP_false, true_and]
  by_cases h : s.countP (fun c => shouldEscape c .encodePathSegment) = 0
  · simp [h, hloop s h]
  · simp [h]

/-- A hexadecimal digit that `escape` writes is none of `/`, `?`, `#`. -/
theorem upperhex_safe (i : Nat) :
    upperhex.getD i 0 ≠ ch '/' ∧ upperhex.getD i 0 ≠ ch '?' ∧ upperhex.getD i 0 ≠ ch '#' := by
  by_cases h : i < 16
  · interval_cases i <;> decide
  · have hlen : upperhex.length ≤ i := by
      have : upperhex.length = 16 := by decide
      omega
    rw [List.getD_eq_default _ _ hlen]
    decide

/-- In path-segment mode the loop writes, for an input byte that is to be escaped, `%` and
two hexadecimal digits, and for any other byte the byte itself. -/
theorem escapeByte_pathSegment (c : Byte) :
    escapeByte c .encodePathSegment =
      if shouldEscape c .encodePathSegment then
        [ch '%', upperhex.getD (c.val >>> 4) 0, upperhex.getD (c.val &&& 15) 0]
      else [c] := by
  simp [escapeByte]

/-- No byte the loop writes for an input byte is `/`, `?` or `#`. -/
theorem escapeByte_pathSegment_safe (c : Byte) : ∀ b ∈ escapeByte c .encodePathSegment,
    b ≠ ch '/' ∧ b ≠ ch '?' ∧ b ≠ ch '#' := by
  intro b hb
  rw [escapeByte_pathSegment] at hb
  by_cases hc : shouldEscape c .encodePathSegment = true
  · rw [if_pos hc] at hb
    simp only [List.mem_cons, List.mem_singleton, List.not_mem_nil, or_false] at hb
    rcases hb with rfl | rfl | rfl
    · decide
    · exact upperhex_safe _
    · exact upperhex_safe _
  · rw [if_neg hc] at hb
    simp only [List.mem_singleton] at hb
    subst hb
    refine ⟨?_, ?_, ?_⟩ <;> intro h <;> subst h <;> exact hc (by decide)

/-- For an input byte the loop writes either the byte itself, which is then not `%`, or
three bytes starting with `%`. -/
theorem escapeByte_pathSegment_cases (c : Byte) :
    (escapeByte c .encodePathSegment = [c] ∧ c ≠ ch '%') ∨
      ∃ x y, escapeByte c .encodePathSegment = [ch '%', x, y] := by
  rw [escapeByte_pathSegment]
  by_cases hc : shouldEscape c .encodePathSegment = true
  · right
    exact ⟨_, _, by rw [if_pos hc]⟩
  · left
    refine ⟨by rw [if_neg hc], ?_⟩
    intro h
    subst h
    exact hc (by decide)

/-- No byte of an escaped identifier is `/`, `?` or `#`. -/
theorem PathEscape_safe (s : GoString) : ∀ b ∈ PathEscape s,
    b ≠ ch '/' ∧ b ≠ ch '?' ∧ b ≠ ch '#' := by
  unfold PathEscape
  rw [escape_pathSegment]
  induction s with
  | nil => intro b hb; simp [escapeLoop] at hb
  | cons c s ih =>
    intro b hb
    simp only [escapeLoop, List.mem_append] at hb
    rcases hb with hb | hb
    · exact escapeByte_pathSegment_safe c b hb
    · exact ih b hb

/-- An escaped identifier without `%` in it is the identifier itself. -/
theorem PathEscape_no_percent (s : GoString) (h : ch '%' ∉ PathEscape s) : PathEscape s = s := by
  unfold PathEscape at h ⊢
  rw [escape_pathSegment] at h ⊢
  induction s with
  | nil => rfl
  | cons c s ih =>
    simp only [escapeLoop, List.mem_append, not_or] at h ⊢
    rcases escapeByte_pathSegment_cases c with ⟨hc, _⟩ | ⟨x, y, hc⟩
    · rw [hc, ih h.2]; rfl
    · exact absurd (by rw [hc]; simp) h.1

/-- Escaping keeps dot segments apart: an escaped identifier is `.` or `..` only when the
identifier is. -/
theorem PathEscape_dotSegment (s : GoString) (h : isDotSegment (PathEscape s)) :
    isDotSegment s := by
  have hp : ch '%' ∉ PathEscape s := by
    rcases h with h | h <;> rw [h] <;> decide
  rw [PathEscape_no_percent s hp] at h
  exact h

/-! ## Lemmas on the text `json.Marshal` writes -/

/-- A left shift is a multiplication by a power of two. -/
theorem shl_mul (a n m : Nat) (hm : 2 ^ n = m) : a <<< n = a * m := by
  rw [Nat.shiftLeft_eq, hm]

/-- The bitwise or of a shifted value with a value below the shift is their sum. -/
theorem shl_or (a y n m : Nat) (hm : 2 ^ n = m) (hy : y < m) : a <<< n ||| y = a * m + y := by
  subst hm
  rw [Nat.shiftLeft_eq, Nat.mul_comm, ← Nat.mul_add_lt_is_or hy]

/-- The bitwise or of a multiple of a power of two with a value below it is their sum. -/
theorem mul_or (a y n m : Nat) (hm : 2 ^ n = m) (hy : y < m) : a * m ||| y = a * m + y := by
  have h := shl_or a y n m hm hy
  rw [shl_mul a n m hm] at h
  exact h

/-- The rune of a two-byte encoding, in arithmetic. -/
theorem rune2_eq (x y : Nat) : (x &&& 0x1F) <<< 6 ||| (y &&& 0x3F) = x % 32 * 64 + y % 64 := by
  have h1 : x &&& 0x1F = x % 32 := Nat.and_pow_two_sub_one_eq_mod x 5
  have h2 : y &&& 0x3F = y % 64 := Nat.and_pow_two_sub_one_eq_mod y 6
  rw [h1, h2, shl_or (x % 32) (y % 64) 6 64 (by norm_num) (Nat.mod_lt _ (by decide))]

/-- The rune of a three-byte encoding, in arithmetic. -/
theorem rune3_eq (x y z : Nat) :
    (x &&& 0x0F) <<< 12 ||| (y &&& 0x3F) <<< 6 ||| (z &&& 0x3F) =
      x % 16 * 4096 + y % 64 * 64 + z % 64 := by
  have h1 : x &&& 0x0F = x % 16 := Nat.and_pow_two_sub_one_eq_mod x 4
  have h2 : y &&& 0x3F = y % 64 := Nat.and_pow_two_sub_one_eq_mod y 6
  have h3 : z &&& 0x3F = z % 64 := Nat.and_pow_two_sub_one_eq_mod z 6
  have hy : y % 64 < 64 := Nat.mod_lt _ (by decide)
  have hz : z % 64 < 64 := Nat.mod_lt _ (by decide)
  rw [h1, h2, h3, shl_mul (y % 64) 6 64 (by norm_num),
    shl_or (x % 16) (y % 64 * 64) 12 4096 (by norm_num) (by omega)]
  have e : x % 16 * 4096 + y % 64 * 64 = (x % 16 * 64 + y % 64) * 64 := by omega
  rw [e, mul_or _ _ 6 64 (by norm_num) hz]

/-- The rune of a four-byte encoding, in arithmetic. -/
theorem rune4_eq (x y z w : Nat) :
    (x &&& 0x07) <<< 18 ||| (y &&& 0x3F) <<< 12 ||| (z &&& 0x3F) <<< 6 ||| (w &&& 0x3F) =
      x % 8 * 262144 + y % 64 * 4096 + z % 64 * 64 + w % 64 := by
  have h1 : x &&& 0x07 = x % 8 := Nat.and_pow_two_sub_one_eq_mod x 3
  have h2 : y &&& 0x3F = y % 64 := Nat.and_pow_two_sub_one_eq_mod y 6
  have h3 : z &&& 0x3F = z % 64 := Nat.and_pow_two_sub_one_eq_mod z 6
  have h4 : w &&& 0x3F = w % 64 := Nat.and_pow_two_sub_one_eq_mod w 6
  have hy : y % 64 < 64 := Nat.mod_lt _ (by decide)
  have hz : z % 64 < 64 := Nat.mod_lt _ (by decide)
  have hw : w % 64 < 64 := Nat.mod_lt _ (by decide)
  rw [h1, h2, h3, h4, shl_mul (y % 64) 12 4096 (by norm_num),
    shl_mul (z % 64) 6 64 (by norm_num),
    shl_or (x % 8) (y % 64 * 4096) 18 262144 (by norm_num) (by omega)]
  have e1 : x % 8 * 262144 + y % 64 * 4096 = (x % 8 * 64 + y % 64) * 4096 := by omega
  rw [e1, mul_or _ (z % 64 * 64) 12 4096 (by norm_num) (by omega)]
  have e2 : (x % 8 * 64 + y % 64) * 4096 + z % 64 * 64 =
      ((x % 8 * 64 + y % 64) * 64 + z % 64) * 64 := by omega
  rw [e2, mul_or _ _ 6 64 (by norm_num) hw]

/-- The rows of the table `first` for the bytes that are not ASCII. -/
theorem first_cases (b : Byte) (hb : 0x80 ≤ b.val) :
    first b = 0xF1 ∨ (first b = 0x02 ∧ 0xC2 ≤ b.val ∧ b.val ≤ 0xDF) ∨
    (first b = 0x13 ∧ b.val = 0xE0) ∨ (first b = 0x03 ∧ 0xE1 ≤ b.val ∧ b.val ≤ 0xEF) ∨
    (first b = 0x23 ∧ b.val = 0xED) ∨ (first b = 0x34 ∧ b.val = 0xF0) ∨
    (first b = 0x04 ∧ 0xF1 ≤ b.val ∧ b.val ≤ 0xF3) ∨ (first b = 0x44 ∧ b.val = 0xF4) := by
  have hlt := b.isLt
  generalize hv : b.val = v at hb hlt ⊢
  have hf : first b = if v < 0x80 then 0xF0 else if v < 0xC2 then 0xF1 else if v < 0xE0 then 0x02
      else if v = 0xE0 then 0x13 else if v < 0xED then 0x03 else if v = 0xED then 0x23
      else if v < 0xF0 then 0x03 else if v = 0xF0 then 0x34 else if v < 0xF4 then 0x04
      else if v = 0xF4 then 0x44 else 0xF1 := by
    rw [← hv]; rfl
  rw [hf]
  clear hf hv
  by_cases h1 : v < 0xC2
  · left; rw [if_neg (by omega), if_pos h1]
  by_cases h2 : v < 0xE0
  · right; left; rw [if_neg (by omega), if_neg h1, if_pos h2]; omega
  by_cases h3 : v = 0xE0
  · right; right; left; rw [if_neg (by omega), if_neg h1, if_neg h2, if_pos h3]; omega
  by_cases h4 : v < 0xED
  · right; right; right; left
    rw [if_neg (by omega), if_neg h1, if_neg h2, if_neg h3, if_pos h4]; omega
  by_cases h5 : v = 0xED
  · right; right; right; right; left
    rw [if_neg (by omega), if_neg h1, if_neg h2, if_neg h3, if_neg h4, if_pos h5]; omega
  by_cases h6 : v < 0xF0
  · right; right; right; left
    rw [if_neg (by omega), if_neg h1, if_neg h2, if_neg h3, if_neg h4, if_neg h5, if_pos h6]
    omega
  by_cases h7 : v = 0xF0
  · right; right; right; right; right; left
    rw [if_neg (by omega), if_neg h1, if_neg h2, if_neg h3, if_neg h4, if_neg h5, if_neg h6,
      if_pos h7]
    omega
  by_cases h8 : v < 0xF4
  · right; right; right; right; right; right; left
    rw [if_neg (by omega), if_neg h1, if_neg h2, if_neg h3, if_neg h4, if_neg h5, if_neg h6,
      if_neg h7, if_pos h8]
    omega
  by_cases h9 : v = 0xF4
  · right; right; right; right; right; right; right
    rw [if_neg (by omega), if_neg h1, if_neg h2, if_neg h3, if_neg h4, if_neg h5, if_neg h6,
      if_neg h7, if_neg h8, if_pos h9]
    omega
  · left
    rw [if_neg (by omega), if_neg h1, if_neg h2, if_neg h3, if_neg h4, if_neg h5, if_neg h6,
      if_neg h7, if_neg h8, if_neg h9]


/-- A byte that is not ASCII either cannot start a rune, or gives the size of the encoding
and the range of the second byte. -/
theorem first_multi (b : Byte) (hb : 0x80 ≤ b.val) :
    first b = 0xF1 ∨ ∃ sz lo hi, first b < 0xF0 ∧ first b &&& 7 = sz ∧
      acceptRanges (first b >>> 4) = (lo, hi) ∧ 0x80 ≤ lo ∧ hi ≤ 0xBF ∧
      ((sz = 2 ∧ 0xC2 ≤ b.val ∧ b.val ≤ 0xDF) ∨
       (sz = 3 ∧ 0xE0 ≤ b.val ∧ b.val ≤ 0xEF ∧ (b.val = 0xE0 → lo = 0xA0)) ∨
       (sz = 4 ∧ 0xF0 ≤ b.val ∧ b.val ≤ 0xF4 ∧ (b.val = 0xF0 → lo = 0x90))) := by
  rcases first_cases b hb with h | ⟨h, h1, h2⟩ | ⟨h, h1⟩ | ⟨h, h1, h2⟩ | ⟨h, h1⟩ | ⟨h, h1⟩ |
    ⟨h, h1, h2⟩ | ⟨h, h1⟩
  · exact Or.inl h
  all_goals right; rw [h]
  · exact ⟨2, 0x80, 0xBF, by decide, rfl, rfl, by decide, by decide, Or.inl ⟨rfl, h1, h2⟩⟩
  · exact ⟨3, 0xA0, 0xBF, by decide, rfl, rfl, by decide, by decide,
      Or.inr (Or.inl ⟨rfl, by omega, by omega, fun _ => rfl⟩)⟩
  · exact ⟨3, 0x80, 0xBF, by decide, rfl, rfl, by decide, by decide,
      Or.inr (Or.inl ⟨rfl, by omega, by omega, fun h0 => by omega⟩)⟩
  · exact ⟨3, 0x80, 0x9F, by decide, rfl, rfl, by decide, by decide,
      Or.inr (Or.inl ⟨rfl, by omega, by omega, fun h0 => by omega⟩)⟩
  · exact ⟨4, 0x90, 0xBF, by decide, rfl, rfl, by decide, by decide,
      Or.inr (Or.inr ⟨rfl, by omega, by omega, fun _ => rfl⟩)⟩
  · exact ⟨4, 0x80, 0xBF, by decide, rfl, rfl, by decide, by decide,
      Or.inr (Or.inr ⟨rfl, by omega, by omega, fun h0 => by omega⟩)⟩
  · exact ⟨4, 0x80, 0x8F, by decide, rfl, rfl, by decide, by decide,
      Or.inr (Or.inr ⟨rfl, by omega, by omega, fun h0 => by omega⟩)⟩

/-- A three-byte rune in the block of U+2028 fixes the low bits of its three bytes. -/
theorem rune3_bytes (x y z k : Nat) (hk : k < 64)
    (h : x % 16 * 4096 + y % 64 * 64 + z % 64 = 0x2000 + k) :
    x % 16 = 2 ∧ y % 64 = 0 ∧ z % 64 = k := by
  have hx : x % 16 < 16 := Nat.mod_lt _ (by decide)
  have hy : y % 64 < 64 := Nat.mod_lt _ (by decide)
  have hz : z % 64 < 64 := Nat.mod_lt _ (by decide)
  generalize x % 16 = a at h hx
  generalize y % 64 = c at h hy
  generalize z % 64 = d at h hz
  omega

/-- A four-byte rune whose second byte is high enough is beyond the basic plane. -/
theorem rune4_large (x y z w : Nat) (h : x % 8 = 0 → 16 ≤ y % 64) {c : Nat} (hc : c < 0x10000) :
    x % 8 * 262144 + y % 64 * 4096 + z % 64 * 64 + w % 64 ≠ c := by
  generalize x % 8 = a at h
  generalize y % 64 = d at h
  omega

/-- The body of `DecodeRuneInString` for a first byte that starts a multi-byte encoding. -/
theorem decode_unfold (s0 : Byte) (t : GoString) (h : ¬ (0xF0 ≤ first s0)) :
    DecodeRuneInString (s0 :: t) =
      if (s0 :: t).length < first s0 &&& 7 then (RuneError, 1)
      else if ((s0 :: t).getD 1 0).val < (acceptRanges (first s0 >>> 4)).1 ∨
          (acceptRanges (first s0 >>> 4)).2 < ((s0 :: t).getD 1 0).val then (RuneError, 1)
      else if first s0 &&& 7 ≤ 2 then
        ((s0.val &&& 0x1F) <<< 6 ||| (((s0 :: t).getD 1 0).val &&& 0x3F), 2)
      else if ((s0 :: t).getD 2 0).val < 0x80 ∨ 0xBF < ((s0 :: t).getD 2 0).val then
        (RuneError, 1)
      else if first s0 &&& 7 ≤ 3 then
        ((s0.val &&& 0x0F) <<< 12 ||| (((s0 :: t).getD 1 0).val &&& 0x3F) <<< 6 |||
          (((s0 :: t).getD 2 0).val &&& 0x3F), 3)
      else if ((s0 :: t).getD 3 0).val < 0x80 ∨ 0xBF < ((s0 :: t).getD 3 0).val then
        (RuneError, 1)
      else
        ((s0.val &&& 0x07) <<< 18 ||| (((s0 :: t).getD 1 0).val &&& 0x3F) <<< 12 |||
          (((s0 :: t).getD 2 0).val &&& 0x3F) <<< 6 ||| (((s0 :: t).getD 3 0).val &&& 0x3F), 4) := by
  simp only [DecodeRuneInString, if_neg h]

/-- The result of decoding a string that starts with a byte that is not ASCII. -/
theorem decode_multi (b : Byte) (t : GoString) (hb : 0x80 ≤ b.val)
    (hv : ¬ ((DecodeRuneInString (b :: t)).1 = RuneError ∧
      (DecodeRuneInString (b :: t)).2 = 1)) :
    1 ≤ (DecodeRuneInString (b :: t)).2 ∧
    (DecodeRuneInString (b :: t)).2 ≤ (b :: t).length ∧
    (∀ x ∈ (b :: t).take (DecodeRuneInString (b :: t)).2, 0x80 ≤ x.val) ∧
    ((DecodeRuneInString (b :: t)).1 = 0x2028 →
      (b :: t).take (DecodeRuneInString (b :: t)).2 = [0xE2, 0x80, 0xA8]) ∧
    ((DecodeRuneInString (b :: t)).1 = 0x2029 →
      (b :: t).take (DecodeRuneInString (b :: t)).2 = [0xE2, 0x80, 0xA9]) := by
  rcases first_multi b hb with h | ⟨sz, lo, hi, hx, hsz, hacc, hlo, hhi, hcls⟩
  · exact absurd (by simp [DecodeRuneInString, h]) hv
  have hx2 : ¬ (0xF0 ≤ first b) := by omega
  have hbl := b.isLt
  have hdef := decode_unfold b t hx2
  simp only [hsz, hacc] at hdef
  by_cases hlen : (b :: t).length < sz
  · exact absurd (by rw [hdef, if_pos hlen]; exact ⟨rfl, rfl⟩) hv
  by_cases h1 : ((b :: t).getD 1 0).val < lo ∨ hi < ((b :: t).getD 1 0).val
  · exact absurd (by rw [hdef, if_neg hlen, if_pos h1]; exact ⟨rfl, rfl⟩) hv
  rw [if_neg hlen, if_neg h1] at hdef
  rcases hcls with ⟨rfl, hb1, hb2⟩ | ⟨rfl, hb1, hb2, hb3⟩ | ⟨rfl, hb1, hb2, hb3⟩
  · rw [if_pos (le_refl 2)] at hdef
    rcases t with _ | ⟨b1, t1⟩
    · exact absurd (by simp) hlen
    simp only [List.getD_cons_succ, List.getD_cons_zero] at h1 hdef
    rw [hdef, rune2_eq]
    refine ⟨by simp, by simp, ?_, ?_, ?_⟩
    · intro x hx
      simp only [List.take_succ_cons, List.take_zero, List.mem_cons, List.mem_singleton,
        List.not_mem_nil, or_false] at hx
      rcases hx with rfl | rfl <;> omega
    · intro hc
      simp only at hc
      omega
    · intro hc
      simp only at hc
      omega
  · rw [if_neg (by decide : ¬ (3 ≤ 2))] at hdef
    by_cases h2 : ((b :: t).getD 2 0).val < 0x80 ∨ 0xBF < ((b :: t).getD 2 0).val
    · exact absurd (by rw [hdef, if_pos h2]; exact ⟨rfl, rfl⟩) hv
    rw [if_neg h2, if_pos (le_refl 3)] at hdef
    rcases t with _ | ⟨b1, _ | ⟨b2, t2⟩⟩
    · exact absurd (by simp) hlen
    · exact absurd (by simp) hlen
    simp only [List.getD_cons_succ, List.getD_cons_zero] at h1 h2 hdef
    have hl1 := b1.isLt
    have hl2 := b2.isLt
    rw [hdef, rune3_eq]
    refine ⟨by simp, by simp, ?_, ?_, ?_⟩
    · intro x hx
      simp only [List.take_succ_cons, List.take_zero, List.mem_cons, List.mem_singleton,
        List.not_mem_nil, or_false] at hx
      rcases hx with rfl | rfl | rfl <;> omega
    · intro hc
      simp only at hc
      have hm := rune3_bytes _ _ _ 40 (by decide) hc
      have e0 : b = 0xE2 := Fin.ext (by show b.val = 0xE2; omega)
      have e1 : b1 = 0x80 := Fin.ext (by show b1.val = 0x80; omega)
      have e2 : b2 = 0xA8 := Fin.ext (by show b2.val = 0xA8; omega)
      rw [e0, e1, e2]
      rfl
    · intro hc
      simp only at hc
      have hm := rune3_bytes _ _ _ 41 (by decide) hc
      have e0 : b = 0xE2 := Fin.ext (by show b.val = 0xE2; omega)
      have e1 : b1 = 0x80 := Fin.ext (by show b1.val = 0x80; omega)
      have e2 : b2 = 0xA9 := Fin.ext (by show b2.val = 0xA9; omega)
      rw [e0, e1, e2]
      rfl
  · rw [if_neg (by decide : ¬ (4 ≤ 2))] at hdef
    by_cases h2 : ((b :: t).getD 2 0).val < 0x80 ∨ 0xBF < ((b :: t).getD 2 0).val
    · exact absurd (by rw [hdef, if_pos h2]; exact ⟨rfl, rfl⟩) hv
    rw [if_neg h2, if_neg (by decide : ¬ (4 ≤ 3))] at hdef
    by_cases h3 : ((b :: t).getD 3 0).val < 0x80 ∨ 0xBF < ((b :: t).getD 3 0).val
    · exact absurd (by rw [hdef, if_pos h3]; exact ⟨rfl, rfl⟩) hv
    rw [if_neg h3] at hdef
    rcases t with _ | ⟨b1, _ | ⟨b2, _ | ⟨b3, t3⟩⟩⟩
    · exact absurd (by simp) hlen
    · exact absurd (by simp) hlen
    · exact absurd (by simp) hlen
    simp only [List.getD_cons_succ, List.getD_cons_zero] at h1 h2 h3 hdef
    have hl1 := b1.isLt
    have hl2 := b2.isLt
    have hl3 := b3.isLt
    rw [hdef, rune4_eq]
    refine ⟨by simp, by simp, ?_, ?_, ?_⟩
    · intro x hx
      simp only [List.take_succ_cons, List.take_zero, List.mem_cons, List.mem_singleton,
        List.not_mem_nil, or_false] at hx
      rcases hx with rfl | rfl | rfl | rfl <;> omega
    · intro hc
      simp only at hc
      exact absurd hc (rune4_large _ _ _ _ (fun h => by have := hb3 (by omega); omega) (by decide))
    · intro hc
      simp only at hc
      exact absurd hc (rune4_large _ _ _ _ (fun h => by have := hb3 (by omega); omega) (by decide))

/-- A first byte that starts a multi-byte encoding is not ASCII. -/
theorem first_lt_of (b : Byte) (h : ¬ (0xF0 ≤ first b)) : 0x80 ≤ b.val := by
  by_contra hb
  have hb2 : b.val < 0x80 := by omega
  exact h (by simp [first, hb2])

/-- Every rune decoded from a string that is not empty has a width of at least one. -/
theorem decode_size_pos (b : Byte) (t : GoString) : 1 ≤ (DecodeRuneInString (b :: t)).2 := by
  by_cases hx : 0xF0 ≤ first b
  · simp [DecodeRuneInString, hx]
  · rw [decode_unfold b t hx]
    split_ifs <;> simp

/-- Decoding looks at no more than the first four bytes. -/
theorem decode_take (src : GoString) :
    DecodeRuneInString (src.take UTFMax) = DecodeRuneInString src := by
  rcases src with _ | ⟨a, _ | ⟨b, _ | ⟨c, _ | ⟨d, rest⟩⟩⟩⟩
  · rfl
  · rfl
  · rfl
  · rfl
  show DecodeRuneInString [a, b, c, d] = DecodeRuneInString (a :: b :: c :: d :: rest)
  by_cases hx : 0xF0 ≤ first a
  · simp [DecodeRuneInString, hx]
  · have hsz : first a &&& 7 ≤ 4 := by
      rcases first_multi a (first_lt_of a hx) with h | ⟨sz, lo, hi, _, hsz, _, _, _, hcls⟩
      · omega
      · rw [hsz]
        rcases hcls with ⟨rfl, _⟩ | ⟨rfl, _⟩ | ⟨rfl, _⟩ <;> decide
    rw [decode_unfold a _ hx, decode_unfold a _ hx]
    have l1 : ¬ (([a, b, c, d] : GoString).length < first a &&& 7) := by
      simp only [List.length_cons, List.length_nil]; omega
    have l2 : ¬ ((a :: b :: c :: d :: rest).length < first a &&& 7) := by
      simp only [List.length_cons]; omega
    rw [if_neg l1, if_neg l2]
    simp only [List.getD_cons_succ, List.getD_cons_zero]

/-- The meaning of a literal that goes on with a byte that is neither the quotation mark nor
the backslash. -/
theorem unquoteBody_plain (b : Byte) (rest : GoString) (h1 : b ≠ 34) (h2 : b ≠ 92) :
    unquoteBody (b :: rest) = (unquoteBody rest).map (fun r => b :: r) := by
  rw [unquoteBody.eq_def]
  simp only [if_neg h1, if_neg h2]

/-- The meaning of a literal that goes on with a two-character escape. -/
theorem unquoteBody_short (e x : Byte) (rest : GoString) (h1 : e ≠ ch 'u')
    (h2 : unescape e = some x) :
    unquoteBody (92 :: e :: rest) = (unquoteBody rest).map (fun r => x :: r) := by
  rw [unquoteBody.eq_def]
  simp only [if_neg (show ¬ ((92 : Byte) = 34) by decide), if_true, if_neg h1, h2]

/-- The meaning of a literal that goes on with a `\u` escape of a code point outside the
surrogates. -/
theorem unquoteBody_u (h1 h2 h3 h4 : Byte) (d1 d2 d3 d4 : Nat) (rest : GoString)
    (e1 : hexVal h1 = some d1) (e2 : hexVal h2 = some d2) (e3 : hexVal h3 = some d3)
    (e4 : hexVal h4 = some d4)
    (hs : ¬ (0xD800 ≤ d1 * 4096 + d2 * 256 + d3 * 16 + d4 ∧
      d1 * 4096 + d2 * 256 + d3 * 16 + d4 < 0xE000)) :
    unquoteBody (92 :: ch 'u' :: h1 :: h2 :: h3 :: h4 :: rest) =
      (unquoteBody rest).map
        (fun r => encodeRune (d1 * 4096 + d2 * 256 + d3 * 16 + d4) ++ r) := by
  rw [unquoteBody.eq_def]
  simp only [if_neg (show ¬ ((92 : Byte) = 34) by decide), if_true, e1, e2, e3, e4, if_neg hs]

/-- Bytes other than the quotation mark and the backslash stand for themselves. -/
theorem unquoteBody_raw (raw X : GoString) (h : ∀ x ∈ raw, x ≠ 34 ∧ x ≠ 92) :
    unquoteBody (raw ++ X) = (unquoteBody X).map (fun r => raw ++ r) := by
  induction raw with
  | nil => simp
  | cons x raw ih =>
    have hx := h x (List.mem_cons_self _ _)
    have ih2 := ih (fun y hy => h y (List.mem_cons_of_mem _ hy))
    rw [List.cons_append, unquoteBody_plain x _ hx.1 hx.2, ih2, Option.map_map]
    rfl

set_option maxRecDepth 100000 in
/-- The two hexadecimal digits written for a byte give the byte back. -/
theorem hex_digits (b : Byte) :
    hexVal (hex.getD (b.val >>> 4) 0) = some (b.val >>> 4) ∧
    hexVal (hex.getD (b.val &&& 0xF) 0) = some (b.val &&& 0xF) ∧
    (b.val >>> 4) * 16 + (b.val &&& 0xF) = b.val := by
  revert b
  decide

/-- The UTF-8 encoding of the code point of an ASCII byte is the byte. -/
theorem encodeRune_ascii (b : Byte) (hb : b.val < 0x80) : encodeRune b.val = [b] := by
  have hlt := b.isLt
  rw [encodeRune, if_pos hb]
  congr 1
  apply Fin.ext
  show b.val % 256 = b.val
  omega

/-- The escape written for an ASCII byte stands for the byte. -/
theorem unquoteBody_escape (b : Byte) (hb : b.val < 0x80) (X : GoString) :
    unquoteBody (appendEscape b ++ X) = (unquoteBody X).map (fun r => b :: r) := by
  unfold appendEscape
  split_ifs with h1 h2 h3 h4 h5 h6
  · rcases h1 with rfl | rfl
    · exact unquoteBody_short 92 92 X (by decide) (by decide)
    · exact unquoteBody_short 34 34 X (by decide) (by decide)
  · subst h2
    exact unquoteBody_short (ch 'b') 8 X (by decide) (by decide)
  · subst h3
    exact unquoteBody_short (ch 'f') 12 X (by decide) (by decide)
  · subst h4
    exact unquoteBody_short (ch 'n') 10 X (by decide) (by decide)
  · subst h5
    exact unquoteBody_short (ch 'r') 13 X (by decide) (by decide)
  · subst h6
    exact unquoteBody_short (ch 't') 9 X (by decide) (by decide)
  · have hd := hex_digits b
    have hlt := b.isLt
    have hu := unquoteBody_u (ch '0') (ch '0') (hex.getD (b.val >>> 4) 0)
      (hex.getD (b.val &&& 0xF) 0) 0 0 (b.val >>> 4) (b.val &&& 0xF) X (by decide) (by decide)
      hd.1 hd.2.1 (by omega)
    have hc : 0 * 4096 + 0 * 256 + (b.val >>> 4) * 16 + (b.val &&& 0xF) = b.val := by omega
    rw [hc, encodeRune_ascii b hb] at hu
    exact hu

/-- One turn of the loop of `appendString` on a string whose first rune is valid: it
advances by the width of the rune, and what it writes stands for the bytes of the rune. -/
theorem step_roundtrip (b : Byte) (t : GoString)
    (hv : ¬ ((DecodeRuneInString (b :: t)).1 = RuneError ∧
      (DecodeRuneInString (b :: t)).2 = 1)) (X : GoString) :
    1 ≤ (appendStringStep (b :: t)).2 ∧
    (appendStringStep (b :: t)).2 ≤ (b :: t).length ∧
    (appendStringStep (b :: t)).2 = (DecodeRuneInString (b :: t)).2 ∧
    unquoteBody ((appendStringStep (b :: t)).1 ++ X) =
      (unquoteBody X).map (fun r => (b :: t).take (appendStringStep (b :: t)).2 ++ r) := by
  by_cases hb : b.val < RuneSelf
  · have hd : DecodeRuneInString (b :: t) = (b.val, 1) := by
      have hf : first b = 0xF0 := by
        have hb2 : b.val < 0x80 := hb
        simp [first, hb2]
      simp [DecodeRuneInString, hf]
    by_cases hs : htmlSafeSet b = true
    · have hst : appendStringStep (b :: t) = ([b], 1) := by
        simp [appendStringStep, hb, hs]
      rw [hst, hd]
      refine ⟨le_refl 1, by simp, rfl, ?_⟩
      have hne : b ≠ 34 ∧ b ≠ 92 := by
        simp only [htmlSafeSet, decide_eq_true_eq] at hs
        constructor <;> intro h <;> subst h <;> exact hs.2.2 (by decide)
      exact unquoteBody_plain b X hne.1 hne.2
    · have hst : appendStringStep (b :: t) = (appendEscape b, 1) := by
        simp [appendStringStep, hb, hs]
      rw [hst, hd]
      exact ⟨le_refl 1, by simp, rfl, unquoteBody_escape b hb X⟩
  · have hb2 : 0x80 ≤ b.val := by
      have : ¬ (b.val < 0x80) := hb
      omega
    obtain ⟨h1, h2, h3, h4, h5⟩ := decode_multi b t hb2 hv
    have hst : appendStringStep (b :: t) =
        if (DecodeRuneInString (b :: t)).1 = RuneError ∧ (DecodeRuneInString (b :: t)).2 = 1 then
          ([92, ch 'u', ch 'f', ch 'f', ch 'f', ch 'd'], (DecodeRuneInString (b :: t)).2)
        else if (DecodeRuneInString (b :: t)).1 = 0x2028 ∨
            (DecodeRuneInString (b :: t)).1 = 0x2029 then
          ([92, ch 'u', ch '2', ch '0', ch '2',
            hex.getD ((DecodeRuneInString (b :: t)).1 &&& 0xF) 0], (DecodeRuneInString (b :: t)).2)
        else ((b :: t).take (DecodeRuneInString (b :: t)).2, (DecodeRuneInString (b :: t)).2) := by
      rw [← decode_take (b :: t)]
      simp only [appendStringStep, if_neg hb]
    rw [if_neg hv] at hst
    by_cases hc : (DecodeRuneInString (b :: t)).1 = 0x2028 ∨
        (DecodeRuneInString (b :: t)).1 = 0x2029
    · rw [if_pos hc] at hst
      rw [hst]
      refine ⟨h1, h2, rfl, ?_⟩
      rcases hc with hc | hc
      · rw [h4 hc, hc]
        exact unquoteBody_u (ch '2') (ch '0') (ch '2') (ch '8') 2 0 2 8 X (by decide)
          (by decide) (by decide) (by decide) (by decide)
      · rw [h5 hc, hc]
        exact unquoteBody_u (ch '2') (ch '0') (ch '2') (ch '9') 2 0 2 9 X (by decide)
          (by decide) (by decide) (by decide) (by decide)
    · rw [if_neg hc] at hst
      rw [hst]
      refine ⟨h1, h2, rfl, ?_⟩
      apply unquoteBody_raw
      intro x hx
      have hx2 := h3 x hx
      constructor <;> intro h <;> subst h <;> exact absurd hx2 (by decide)


/-- More fuel than the length of the source changes nothing in the loop of `appendString`:
with `src.length` turns the loop reaches the end of the source. -/
theorem appendStringLoop_fuel (fuel : Nat) : ∀ (src : GoString) (k : Nat),
    src.length ≤ fuel → appendStringLoop (fuel + k) src = appendStringLoop fuel src := by
  induction fuel with
  | zero =>
    intro src k h
    have hs : src = [] := List.length_eq_zero.mp (by omega)
    subst hs
    cases k <;> simp [appendStringLoop]
  | succ fuel ih =>
    intro src k h
    rcases src with _ | ⟨b, t⟩
    · rw [show fuel + 1 + k = (fuel + k) + 1 by omega]
      simp [appendStringLoop]
    · rw [show fuel + 1 + k = (fuel + k) + 1 by omega]
      simp only [appendStringLoop, if_neg (List.cons_ne_nil b t)]
      have hpos : 1 ≤ (appendStringStep (b :: t)).2 := by
        by_cases hb : b.val < RuneSelf
        · by_cases hs : htmlSafeSet b = true <;> simp [appendStringStep, hb, hs]
        · have hd := decode_size_pos b t
          rw [← decode_take (b :: t)] at hd
          simp only [appendStringStep, if_neg hb]
          split_ifs <;> exact hd
      rw [ih _ k (by simp only [List.length_drop, List.length_cons] at h ⊢; omega)]

/-- The literal written for a valid UTF-8 string stands for the string (loop). -/
theorem appendStringLoop_roundtrip (fuel : Nat) : ∀ src : GoString, src.length ≤ fuel →
    validLoop fuel src = true →
    unquoteBody (appendStringLoop fuel src ++ [34]) = some src := by
  induction fuel with
  | zero =>
    intro src h _
    have hs : src = [] := List.length_eq_zero.mp (by omega)
    subst hs
    rfl
  | succ fuel ih =>
    intro src h hv
    rcases src with _ | ⟨b, t⟩
    · rfl
    · simp only [validLoop, if_neg (List.cons_ne_nil b t)] at hv
      by_cases he : (DecodeRuneInString (b :: t)).1 = RuneError ∧
          (DecodeRuneInString (b :: t)).2 = 1
      · rw [if_pos he] at hv
        exact absurd hv (by decide)
      · rw [if_neg he] at hv
        obtain ⟨h1, h2, h3, h4⟩ := step_roundtrip b t he
          (appendStringLoop fuel ((b :: t).drop (appendStringStep (b :: t)).2) ++ [34])
        simp only [appendStringLoop, if_neg (List.cons_ne_nil b t), List.append_assoc]
        rw [h4, ih _ (by simp only [List.length_drop, List.length_cons] at h ⊢; omega)
          (by rw [h3]; exact hv)]
        simp

/-- The literal `appendString` writes for a valid UTF-8 string stands for that string. -/
theorem appendString_roundtrip (s : GoString) (h : ValidString s = true) :
    unquote (appendString s) = some s := by
  show unquoteBody (appendStringLoop s.length s ++ [34]) = some s
  exact appendStringLoop_roundtrip s.length s (le_refl _) h

/-- The text written for an upload payload. -/
theorem payload_encode (p : UploadKeyPayload) :
    p.toJSON.encode =
      payloadText (appendString p.Key.Text) (appendString p.Key.Label)
        (appendString p.Permission) := by
  have e1 : lit "\x7b\"key\":\x7b\"text\":" =
      [123] ++ (appendString (lit "key") ++ [ch ':'] ++ ([123] ++
        (appendString (lit "text") ++ [ch ':']))) := by decide
  have e2 : lit ",\"label\":" = [ch ','] ++ (appendString (lit "label") ++ [ch ':']) := by
    decide
  have e3 : lit "\x7d,\"permission\":" =
      [125] ++ ([ch ','] ++ (appendString (lit "permission") ++ [ch ':'])) := by decide
  have e4 : lit "\x7d" = [125] := by decide
  simp only [UploadKeyPayload.toJSON, PublicSSHKey.toJSON, JSON.encode, JSON.encodeMembers,
    payloadText, e1, e2, e3, e4, List.append_assoc]

/-! ## Lemmas on `CreateRepository` -/

/-- The outcome when serialization fails. -/
theorem CreateRepository_marshal_error (env : Env) (c : Client) (ctx : Context) (repo : Repo)
    (key : AccessKey) (e : GoError)
    (hm : env.jsonMarshal (uploadKeyPayload key).toJSON = .error e) :
    CreateRepository env c ctx repo key =
      { result := {}, err := some e, calls := [.jsonMarshal (uploadKeyPayload key)] } := by
  simp [CreateRepository, hm]

/-- The outcome when the request cannot be built. -/
theorem CreateRepository_request_error (env : Env) (c : Client) (ctx : Context) (repo : Repo)
    (key : AccessKey) (body : GoString) (e : GoError)
    (hm : env.jsonMarshal (uploadKeyPayload key).toJSON = .ok body)
    (hr : env.newRequestErr ctx MethodPost (requestURL c repo) body = some e) :
    CreateRepository env c ctx repo key =
      { result := {}, err := some e
        calls := [.jsonMarshal (uploadKeyPayload key),
                  .newRequestWithContext ctx MethodPost (requestURL c repo) body] } := by
  simp [CreateRepository, hm, hr]

/-- The outcome when `sendRequest` fails. -/
theorem CreateRepository_send_error (env : Env) (c : Client) (ctx : Context) (repo : Repo)
    (key : AccessKey) (body : GoString) (d : KeyDescription) (e : GoError)
    (hm : env.jsonMarshal (uploadKeyPayload key).toJSON = .ok body)
    (hr : env.newRequestErr ctx MethodPost (requestURL c repo) body = none)
    (hs : env.sendRequest c
      { ctx := ctx, Method := MethodPost, URL := requestURL c repo, Body := body } {} =
        (d, some e)) :
    CreateRepository env c ctx repo key =
      { result := {}, err := some e
        calls := [.jsonMarshal (uploadKeyPayload key),
                  .newRequestWithContext ctx MethodPost (requestURL c repo) body,
                  .sendRequest
                    { ctx := ctx, Method := MethodPost, URL := requestURL c repo,
                      Body := body }] } := by
  simp [CreateRepository, hm, hr, hs]

/-- The outcome when every step succeeds. -/
theorem CreateRepository_ok (env : Env) (c : Client) (ctx : Context) (repo : Repo)
    (key : AccessKey) (body : GoString) (d : KeyDescription)
    (hm : env.jsonMarshal (uploadKeyPayload key).toJSON = .ok body)
    (hr : env.newRequestErr ctx MethodPost (requestURL c repo) body = none)
    (hs : env.sendRequest c
      { ctx := ctx, Method := MethodPost, URL := requestURL c repo, Body := body } {} =
        (d, none)) :
    CreateRepository env c ctx repo key =
      { result := accessKeyOf d, err := none
        calls := [.jsonMarshal (uploadKeyPayload key),
                  .newRequestWithContext ctx MethodPost (requestURL c repo) body,
                  .sendRequest
                    { ctx := ctx, Method := MethodPost, URL := requestURL c repo,
                      Body := body }] } := by
  simp [CreateRepository, hm, hr, hs]

/-- The calls of `CreateRepository` are a serialization of the payload built from the key,
then possibly a request construction for `POST`, the URL and the serialized payload, then
possibly one `sendRequest` of that request. -/
theorem CreateRepository_calls (env : Env) (c : Client) (ctx : Context) (repo : Repo)
    (key : AccessKey) :
    (CreateRepository env c ctx repo key).calls = [.jsonMarshal (uploadKeyPayload key)] ∨
    ∃ body, env.jsonMarshal (uploadKeyPayload key).toJSON = .ok body ∧
      ((CreateRepository env c ctx repo key).calls =
          [.jsonMarshal (uploadKeyPayload key),
           .newRequestWithContext ctx MethodPost (requestURL c repo) body] ∨
        (CreateRepository env c ctx repo key).calls =
          [.jsonMarshal (uploadKeyPayload key),
           .newRequestWithContext ctx MethodPost (requestURL c repo) body,
           .sendRequest
             { ctx := ctx, Method := MethodPost, URL := requestURL c repo, Body := body }]) := by
  cases hm : env.jsonMarshal (uploadKeyPayload key).toJSON with
  | error e => left; rw [CreateRepository_marshal_error env c ctx repo key e hm]
  | ok body =>
    right
    refine ⟨body, rfl, ?_⟩
    cases hr : env.newRequestErr ctx MethodPost (requestURL c repo) body with
    | some e => left; rw [CreateRepository_request_error env c ctx repo key body e hm hr]
    | none =>
      right
      rcases hs : env.sendRequest c
        { ctx := ctx, Method := MethodPost, URL := requestURL c repo, Body := body } {} with
        ⟨d, _ | e⟩
      · rw [CreateRepository_ok env c ctx repo key body d hm hr hs]
      · rw [CreateRepository_send_error env c ctx repo key body d e hm hr hs]

/-- With the library's `json.Marshal`, the payload is serialized to its text, the request
is built with that text as its body, and it is sent when it could be built. -/
theorem CreateRepository_calls_marshal
    (newRequestErr : Context → GoString → GoString → GoString → Option GoError)
    (send : Client → Request → KeyDescription → KeyDescription × Option GoError)
    (c : Client) (ctx : Context) (repo : Repo) (key : AccessKey) :
    (CreateRepository
        { jsonMarshal := Marshal, newRequestErr := newRequestErr, sendRequest := send }
        c ctx repo key).calls =
      [Call.jsonMarshal (uploadKeyPayload key),
       Call.newRequestWithContext ctx MethodPost (requestURL c repo)
         (payloadText (appendString key.Key) (appendString key.Label)
           (appendString key.Permission))] ++
      (if newRequestErr ctx MethodPost (requestURL c repo)
            (payloadText (appendString key.Key) (appendString key.Label)
              (appendString key.Permission)) = none then
        [Call.sendRequest
          { ctx := ctx, Method := MethodPost, URL := requestURL c repo,
            Body := payloadText (appendString key.Key) (appendString key.Label)
              (appendString key.Permission) }]
      else []) := by
  have hm : Marshal (uploadKeyPayload key).toJSON =
      .ok (payloadText (appendString key.Key) (appendString key.Label)
        (appendString key.Permission)) := by
    rw [Marshal, payload_encode]
    rfl
  cases hr : newRequestErr ctx MethodPost (requestURL c repo)
      (payloadText (appendString key.Key) (appendString key.Label)
        (appendString key.Permission)) with
  | some e =>
    rw [CreateRepository_request_error
      { jsonMarshal := Marshal, newRequestErr := newRequestErr, sendRequest := send }
      c ctx repo key _ e hm hr]
    simp
  | none =>
    rcases hs : send c
      { ctx := ctx, Method := MethodPost, URL := requestURL c repo,
        Body := payloadText (appendString key.Key) (appendString key.Label)
          (appendString key.Permission) } {} with ⟨d, _ | e⟩
    · rw [CreateRepository_ok
        { jsonMarshal := Marshal, newRequestErr := newRequestErr, sendRequest := send }
        c ctx repo key _ d hm hr hs]
      simp
    · rw [CreateRepository_send_error
        { jsonMarshal := Marshal, newRequestErr := newRequestErr, sendRequest := send }
        c ctx repo key _ d e hm hr hs]
      simp

/-- The URL of the request, written out. -/
theorem requestURL_eq (c : Client) (repo : Repo) :
    requestURL c repo =
      c.BaseURL ++ lit "/rest/keys/1.0/projects/" ++ PathEscape repo.ProjectKey ++
        lit "/repos/" ++ PathEscape repo.Repo ++ lit "/ssh" := by
  simp [requestURL, List.append_assoc]

/-! ## The claims -/

/-- C1, as stated, fails: the stub server answers with success and with a label other than
the one sent, and the `AccessKey` returned carries the server's label, not the input's. -/
theorem C1_counterexample :
    (CreateRepository
        (stubEnv { Key := { ID := 7, Text := exampleKey.Key, Label := lit "renamed" },
                   Permission := exampleKey.Permission } none)
        exampleClient exampleCtx { ProjectKey := lit "PROJ", Repo := lit "repo" }
        exampleKey).err = none ∧
    (CreateRepository
        (stubEnv { Key := { ID := 7, Text := exampleKey.Key, Label := lit "renamed" },
                   Permission := exampleKey.Permission } none)
        exampleClient exampleCtx { ProjectKey := lit "PROJ", Repo := lit "repo" }
        exampleKey).result.Label = lit "renamed" ∧
    (CreateRepository
        (stubEnv { Key := { ID := 7, Text := exampleKey.Key, Label := lit "renamed" },
                   Permission := exampleKey.Permission } none)
        exampleClient exampleCtx { ProjectKey := lit "PROJ", Repo := lit "repo" }
        exampleKey).result.Label ≠ exampleKey.Label := by
  decide

/-- C1, amended: when serialization and request construction succeed and `sendRequest`
succeeds leaving the response `d`, `CreateRepository` returns, with a nil error, the
`AccessKey` built from the response: its `ID`, `Key`, `Label` and `Permission` are the
response's key id, key text, key label and permission. When the response carries the key
text, label and permission of the input key, this is the input key with only `ID` changed,
to the id of the response; and a field of the result equals the input's exactly when the
response carries it. -/
theorem C1_success_echo (env : Env) (c : Client) (ctx : Context) (repo : Repo)
    (key : AccessKey) (body : GoString) (d : KeyDescription)
    (hm : env.jsonMarshal (uploadKeyPayload key).toJSON = .ok body)
    (hr : env.newRequestErr ctx MethodPost (requestURL c repo) body = none)
    (hs : env.sendRequest c
      { ctx := ctx, Method := MethodPost, URL := requestURL c repo, Body := body } {} =
        (d, none)) :
    (CreateRepository env c ctx repo key).err = none ∧
    (CreateRepository env c ctx repo key).result =
      { ID := d.Key.ID, Key := d.Key.Text, Label := d.Key.Label, Permission := d.Permission } ∧
    (d.Key.Text = key.Key → d.Key.Label = key.Label → d.Permission = key.Permission →
      (CreateRepository env c ctx repo key).result = { key with ID := d.Key.ID }) ∧
    ((CreateRepository env c ctx repo key).result.Key = key.Key ↔ d.Key.Text = key.Key) ∧
    ((CreateRepository env c ctx repo key).result.Label = key.Label ↔
      d.Key.Label = key.Label) ∧
    ((CreateRepository env c ctx repo key).result.Permission = key.Permission ↔
      d.Permission = key.Permission) := by
  rw [CreateRepository_ok env c ctx repo key body d hm hr hs]
  refine ⟨rfl, rfl, ?_, Iff.rfl, Iff.rfl, Iff.rfl⟩
  intro htext hlabel hperm
  simp [accessKeyOf, htext, hlabel, hperm]

/-- Witness of C1, amended: a stub server that echoes the example key with id 7, and one
that answers with another label. -/
theorem C1_success_echo_witness :
    (CreateRepository
        (stubEnv { Key := { ID := 7, Text := exampleKey.Key, Label := exampleKey.Label },
                   Permission := exampleKey.Permission } none)
        exampleClient exampleCtx { ProjectKey := lit "PROJ", Repo := lit "repo" }
        exampleKey).result = { exampleKey with ID := 7 } ∧
    (CreateRepository
        (stubEnv { Key := { ID := 7, Text := exampleKey.Key, Label := lit "renamed" },
                   Permission := exampleKey.Permission } none)
        exampleClient exampleCtx { ProjectKey := lit "PROJ", Repo := lit "repo" }
        exampleKey).result =
      { ID := 7, Key := exampleKey.Key, Label := lit "renamed",
        Permission := exampleKey.Permission } :=
  ⟨(C1_success_echo
      (stubEnv { Key := { ID := 7, Text := exampleKey.Key, Label := exampleKey.Label },
                 Permission := exampleKey.Permission } none)
      exampleClient exampleCtx { ProjectKey := lit "PROJ", Repo := lit "repo" } exampleKey
      (uploadKeyPayload exampleKey).toJSON.encode
      { Key := { ID := 7, Text := exampleKey.Key, Label := exampleKey.Label },
        Permission := exampleKey.Permission }
      rfl rfl rfl).2.2.1 rfl rfl rfl,
   (C1_success_echo
      (stubEnv { Key := { ID := 7, Text := exampleKey.Key, Label := lit "renamed" },
                 Permission := exampleKey.Permission } none)
      exampleClient exampleCtx { ProjectKey := lit "PROJ", Repo := lit "repo" } exampleKey
      (uploadKeyPayload exampleKey).toJSON.encode
      { Key := { ID := 7, Text := exampleKey.Key, Label := lit "renamed" },
        Permission := exampleKey.Permission }
      rfl rfl rfl).2.1⟩

/-- C2: when the request succeeds and the response decodes to `d`, `CreateRepository`
returns exactly `AccessKey{ID: d.Key.ID, Key: d.Key.Text, Label: d.Key.Label, Permission:
d.Permission}` with a nil error; any other successful call, for whatever client, repository
and input key, whose response agrees with `d` on `Key` and `Permission` (its `Repository`
being arbitrary) returns the same value. -/
theorem C2_result_from_response (env : Env) (c : Client) (ctx : Context) (repo : Repo)
    (key : AccessKey) (body : GoString) (d : KeyDescription)
    (hm : env.jsonMarshal (uploadKeyPayload key).toJSON = .ok body)
    (hr : env.newRequestErr ctx MethodPost (requestURL c repo) body = none)
    (hs : env.sendRequest c
      { ctx := ctx, Method := MethodPost, URL := requestURL c repo, Body := body } {} =
        (d, none)) :
    (CreateRepository env c ctx repo key).result =
      { ID := d.Key.ID, Key := d.Key.Text, Label := d.Key.Label, Permission := d.Permission } ∧
    (CreateRepository env c ctx repo key).err = none ∧
    ∀ (env2 : Env) (c2 : Client) (ctx2 : Context) (repo2 : Repo) (key2 : AccessKey)
      (body2 : GoString) (d2 : KeyDescription),
      env2.jsonMarshal (uploadKeyPayload key2).toJSON = .ok body2 →
      env2.newRequestErr ctx2 MethodPost (requestURL c2 repo2) body2 = none →
      env2.sendRequest c2
        { ctx := ctx2, Method := MethodPost, URL := requestURL c2 repo2, Body := body2 } {} =
          (d2, none) →
      d2.Key = d.Key → d2.Permission = d.Permission →
      (CreateRepository env2 c2 ctx2 repo2 key2).result =
        (CreateRepository env c ctx repo key).result := by
  rw [CreateRepository_ok env c ctx repo key body d hm hr hs]
  refine ⟨rfl, rfl, ?_⟩
  intro env2 c2 ctx2 repo2 key2 body2 d2 hm2 hr2 hs2 hk hp
  rw [CreateRepository_ok env2 c2 ctx2 repo2 key2 body2 d2 hm2 hr2 hs2]
  simp [accessKeyOf, hk, hp]

/-- Witness of C2: the stub server answers with a response unrelated to the example key. -/
theorem C2_result_from_response_witness :
    (CreateRepository
        (stubEnv { Key := { ID := 42, Text := lit "ssh-rsa BBBB", Label := lit "ops" },
                   Repository := { Name := lit "repo", ID := 3, Project := { Key := lit "PROJ" } },
                   Permission := PermissionRepoWrite } none)
        exampleClient exampleCtx { ProjectKey := lit "PROJ", Repo := lit "repo" }
        exampleKey).result =
      { ID := 42, Key := lit "ssh-rsa BBBB", Label := lit "ops",
        Permission := PermissionRepoWrite } :=
  (C2_result_from_response
    (stubEnv { Key := { ID := 42, Text := lit "ssh-rsa BBBB", Label := lit "ops" },
               Repository := { Name := lit "repo", ID := 3, Project := { Key := lit "PROJ" } },
               Permission := PermissionRepoWrite } none)
    exampleClient exampleCtx { ProjectKey := lit "PROJ", Repo := lit "repo" } exampleKey
    (uploadKeyPayload exampleKey).toJSON.encode
    { Key := { ID := 42, Text := lit "ssh-rsa BBBB", Label := lit "ops" },
      Repository := { Name := lit "repo", ID := 3, Project := { Key := lit "PROJ" } },
      Permission := PermissionRepoWrite }
    rfl rfl rfl).1

/-- C3: every request `CreateRepository` builds, and the one it hands to `sendRequest`, has
method `POST` and the URL `BaseURL ++ "/rest/keys/1.0/projects/" ++ PathEscape(projectKey) ++
"/repos/" ++ PathEscape(repoName) ++ "/ssh"`; the request is built whenever serialization
succeeds, and handed to `sendRequest` whenever it could be built; and for
`projectKey = "My Proj"`, `repoName = "repo/1"` the URL has the segments `My%20Proj` and
`repo%2F1`. -/
theorem C3_request_url (env : Env) (c : Client) (ctx : Context) (repo : Repo)
    (key : AccessKey) :
    (∀ ctx1 method url body,
      Call.newRequestWithContext ctx1 method url body ∈
          (CreateRepository env c ctx repo key).calls →
        method = lit "POST" ∧
        url = c.BaseURL ++ lit "/rest/keys/1.0/projects/" ++ PathEscape repo.ProjectKey ++
          lit "/repos/" ++ PathEscape repo.Repo ++ lit "/ssh") ∧
    (∀ req, Call.sendRequest req ∈ (CreateRepository env c ctx repo key).calls →
        req.Method = lit "POST" ∧
        req.URL = c.BaseURL ++ lit "/rest/keys/1.0/projects/" ++ PathEscape repo.ProjectKey ++
          lit "/repos/" ++ PathEscape repo.Repo ++ lit "/ssh") ∧
    (∀ body, env.jsonMarshal (uploadKeyPayload key).toJSON = .ok body →
        Call.newRequestWithContext ctx (lit "POST")
            (c.BaseURL ++ lit "/rest/keys/1.0/projects/" ++ PathEscape repo.ProjectKey ++
              lit "/repos/" ++ PathEscape repo.Repo ++ lit "/ssh") body ∈
          (CreateRepository env c ctx repo key).calls) ∧
    requestURL c { ProjectKey := lit "My Proj", Repo := lit "repo/1" } =
      c.BaseURL ++ lit "/rest/keys/1.0/projects/" ++ lit "My%20Proj" ++ lit "/repos/" ++
        lit "repo%2F1" ++ lit "/ssh" ∧
    (∀ body, env.jsonMarshal (uploadKeyPayload key).toJSON = .ok body →
        env.newRequestErr ctx (lit "POST")
            (c.BaseURL ++ lit "/rest/keys/1.0/projects/" ++ PathEscape repo.ProjectKey ++
              lit "/repos/" ++ PathEscape repo.Repo ++ lit "/ssh") body = none →
        Call.sendRequest
            { ctx := ctx, Method := lit "POST",
              URL := c.BaseURL ++ lit "/rest/keys/1.0/projects/" ++
                PathEscape repo.ProjectKey ++ lit "/repos/" ++ PathEscape repo.Repo ++
                lit "/ssh",
              Body := body } ∈
          (CreateRepository env c ctx repo key).calls) := by
  rw [← requestURL_eq]
  refine ⟨?_, ?_, ?_, ?_, ?_⟩
  rotate_right
  · intro body hm hr
    rcases hs : env.sendRequest c
      { ctx := ctx, Method := MethodPost, URL := requestURL c repo, Body := body } {} with
      ⟨d, _ | e⟩
    · rw [CreateRepository_ok env c ctx repo key body d hm hr hs]
      simp [MethodPost]
    · rw [CreateRepository_send_error env c ctx repo key body d e hm hr hs]
      simp [MethodPost]
  · intro ctx1 method url body h
    rcases CreateRepository_calls env c ctx repo key with hc | ⟨b, _, hc | hc⟩ <;>
      rw [hc] at h <;> simp at h
    all_goals
      obtain ⟨_, rfl, rfl, _⟩ := h
      exact ⟨rfl, rfl⟩
  · intro req h
    rcases CreateRepository_calls env c ctx repo key with hc | ⟨b, _, hc | hc⟩ <;>
      rw [hc] at h <;> simp at h
    subst h
    exact ⟨rfl, rfl⟩
  · intro body hm
    rcases CreateRepository_calls env c ctx repo key with hc | ⟨b, hb, hc | hc⟩
    · cases hme : env.jsonMarshal (uploadKeyPayload key).toJSON with
      | error e =>
        rw [hme] at hm
        cases hm
      | ok b2 =>
        cases hr : env.newRequestErr ctx MethodPost (requestURL c repo) b2 with
        | some e =>
          rw [CreateRepository_request_error env c ctx repo key b2 e hme hr] at hc
          simp at hc
        | none =>
          rcases hs : env.sendRequest c
            { ctx := ctx, Method := MethodPost, URL := requestURL c repo, Body := b2 } {} with
            ⟨d, _ | e⟩
          · rw [CreateRepository_ok env c ctx repo key b2 d hme hr hs] at hc
            simp at hc
          · rw [CreateRepository_send_error env c ctx repo key b2 d e hme hr hs] at hc
            simp at hc
    · rw [hb] at hm
      cases hm
      rw [hc]
      simp [MethodPost]
    · rw [hb] at hm
      cases hm
      rw [hc]
      simp [MethodPost]
  · rw [requestURL_eq]
    have h1 : PathEscape (lit "My Proj") = lit "My%20Proj" := by decide
    have h2 : PathEscape (lit "repo/1") = lit "repo%2F1" := by decide
    rw [h1, h2]

/-- Witness of C3: for the project `My Proj` and the repository `repo/1` the client builds
a `POST` request for the URL with the segments `My%20Proj` and `repo%2F1`. -/
theorem C3_request_url_witness :
    Call.newRequestWithContext exampleCtx (lit "POST")
        (lit "https://git.example.com/rest/keys/1.0/projects/My%20Proj/repos/repo%2F1/ssh")
        (uploadKeyPayload exampleKey).toJSON.encode ∈
      (CreateRepository (stubEnv {} none) exampleClient exampleCtx
        { ProjectKey := lit "My Proj", Repo := lit "repo/1" } exampleKey).calls :=
  (C3_request_url (stubEnv {} none) exampleClient exampleCtx
    { ProjectKey := lit "My Proj", Repo := lit "repo/1" } exampleKey).2.2.1
    (uploadKeyPayload exampleKey).toJSON.encode rfl

/-- C4, as stated, fails: `PathEscape` leaves `..` as it is, so for `repoName = ".."` the
escaped identifier is a dot segment and the URL ends in `/repos/../ssh`. -/
theorem C4_counterexample :
    PathEscape (lit "..") = lit ".." ∧
    ¬ (isSingleSegment (PathEscape (lit "..")) ∧ ¬ isDotSegment (PathEscape (lit ".."))) ∧
    requestURL exampleClient { ProjectKey := lit "PROJ", Repo := lit ".." } =
      lit "https://git.example.com/rest/keys/1.0/projects/PROJ/repos/../ssh" := by
  have h : PathEscape (lit "..") = lit ".." := by decide
  refine ⟨h, ?_, by decide⟩
  intro hn
  exact hn.2 (Or.inr h)

/-- C4, amended: for every `projectKey` and `repoName`, each of the two escaped identifiers
has no `/`, `?` or `#` in it, hence is a single path segment, and is a dot segment only when
the identifier itself is `.` or `..`; the URL is the fixed shape
`BaseURL/rest/keys/1.0/projects/<segment>/repos/<segment>/ssh`, whose part after `BaseURL`
has exactly eight `/`; a `repoName` `../other` becomes the single segment `..%2Fother`. -/
theorem C4_single_segments (c : Client) (repo : Repo) :
    isSingleSegment (PathEscape repo.ProjectKey) ∧
    isSingleSegment (PathEscape repo.Repo) ∧
    (isDotSegment (PathEscape repo.ProjectKey) → isDotSegment repo.ProjectKey) ∧
    (isDotSegment (PathEscape repo.Repo) → isDotSegment repo.Repo) ∧
    requestURL c repo =
      c.BaseURL ++ lit "/rest/keys/1.0/projects/" ++ PathEscape repo.ProjectKey ++
        lit "/repos/" ++ PathEscape repo.Repo ++ lit "/ssh" ∧
    (lit "/rest/keys/1.0/projects/" ++ PathEscape repo.ProjectKey ++ lit "/repos/" ++
        PathEscape repo.Repo ++ lit "/ssh").count (ch '/') = 8 ∧
    PathEscape (lit "../other") = lit "..%2Fother" ∧
    ¬ isDotSegment (PathEscape (lit "../other")) := by
  have hseg : ∀ s : GoString, isSingleSegment (PathEscape s) := by
    intro s
    refine ⟨?_, ?_, ?_⟩ <;> intro hmem
    · exact (PathEscape_safe s _ hmem).1 rfl
    · exact (PathEscape_safe s _ hmem).2.1 rfl
    · exact (PathEscape_safe s _ hmem).2.2 rfl
  have hcount : ∀ s : GoString, (PathEscape s).count (ch '/') = 0 := fun s =>
    List.count_eq_zero.mpr (hseg s).1
  refine ⟨hseg _, hseg _, PathEscape_dotSegment _, PathEscape_dotSegment _, requestURL_eq c repo,
    ?_, by decide, ?_⟩
  · rw [List.count_append, List.count_append, List.count_append, List.count_append,
      hcount, hcount]
    decide
  intro h
  have h2 := PathEscape_dotSegment _ h
  rcases h2 with h2 | h2 <;> exact absurd h2 (by decide)

/-- C5: with `sendRequest` as the spec describes it, when the server answers the request
with the "not found" status, `CreateRepository` fails with the sentinel `git.ErrNotFound`
(so `errors.Is(err, git.ErrNotFound)` holds and the error is not the generic one) and
returns the zero `AccessKey`. -/
theorem C5_not_found (jsonMarshal : JSON → Except GoError GoString)
    (newRequestErr : Context → GoString → GoString → GoString → Option GoError)
    (roundTrip : Client → Request → Except GoError Response)
    (decode : GoString → Except GoError KeyDescription)
    (c : Client) (ctx : Context) (repo : Repo) (key : AccessKey) (body : GoString)
    (res : Response)
    (hm : jsonMarshal (uploadKeyPayload key).toJSON = .ok body)
    (hr : newRequestErr ctx MethodPost (requestURL c repo) body = none)
    (hrt : roundTrip c
      { ctx := ctx, Method := MethodPost, URL := requestURL c repo, Body := body } = .ok res)
    (hst : res.StatusCode = StatusNotFound) :
    ∃ e, (CreateRepository
            { jsonMarshal := jsonMarshal, newRequestErr := newRequestErr,
              sendRequest := sendRequest roundTrip decode } c ctx repo key).err = some e ∧
      errorsIs e .ErrNotFound = true ∧
      e ≠ .other "request failed" ∧
      (CreateRepository
            { jsonMarshal := jsonMarshal, newRequestErr := newRequestErr,
              sendRequest := sendRequest roundTrip decode } c ctx repo key).result = {} := by
  refine ⟨.ErrNotFound, ?_, by decide, by decide, ?_⟩ <;>
    rw [CreateRepository_send_error _ c ctx repo key body {} .ErrNotFound hm hr
      (by simp [sendRequest, hrt, hst])]

/-- Witness of C5: the server answers every request with status 404 and an empty body. -/
theorem C5_not_found_witness :
    ∃ e, (CreateRepository
            { jsonMarshal := Marshal, newRequestErr := fun _ _ _ _ => none,
              sendRequest := sendRequest (fun _ _ => .ok { StatusCode := 404, Body := [] })
                (fun _ => .error (.other "unexpected end of JSON input")) }
            exampleClient exampleCtx { ProjectKey := lit "PROJ", Repo := lit "gone" }
            exampleKey).err = some e ∧
      errorsIs e .ErrNotFound = true ∧
      e ≠ .other "request failed" ∧
      (CreateRepository
            { jsonMarshal := Marshal, newRequestErr := fun _ _ _ _ => none,
              sendRequest := sendRequest (fun _ _ => .ok { StatusCode := 404, Body := [] })
                (fun _ => .error (.other "unexpected end of JSON input")) }
            exampleClient exampleCtx { ProjectKey := lit "PROJ", Repo := lit "gone" }
            exampleKey).result = {} :=
  C5_not_found Marshal (fun _ _ _ _ => none)
    (fun _ _ => .ok { StatusCode := 404, Body := [] })
    (fun _ => .error (.other "unexpected end of JSON input"))
    exampleClient exampleCtx { ProjectKey := lit "PROJ", Repo := lit "gone" } exampleKey
    (uploadKeyPayload exampleKey).toJSON.encode { StatusCode := 404, Body := [] }
    rfl rfl rfl rfl

/-- C6: if serialization, request construction or `sendRequest` fails with error `e`,
`CreateRepository` returns the zero `AccessKey` and that same `e`, having made no later
call (after a serialization failure it has built no request and sent none; after a failed
request construction it has sent none); and in every call `sendRequest` is invoked at most
once. -/
theorem C6_errors_propagate (env : Env) (c : Client) (ctx : Context) (repo : Repo)
    (key : AccessKey) (e : GoError) :
    (env.jsonMarshal (uploadKeyPayload key).toJSON = .error e →
      CreateRepository env c ctx repo key =
        { result := {}, err := some e, calls := [.jsonMarshal (uploadKeyPayload key)] }) ∧
    (∀ body, env.jsonMarshal (uploadKeyPayload key).toJSON = .ok body →
      env.newRequestErr ctx MethodPost (requestURL c repo) body = some e →
      CreateRepository env c ctx repo key =
        { result := {}, err := some e
          calls := [.jsonMarshal (uploadKeyPayload key),
                    .newRequestWithContext ctx MethodPost (requestURL c repo) body] }) ∧
    (∀ body d, env.jsonMarshal (uploadKeyPayload key).toJSON = .ok body →
      env.newRequestErr ctx MethodPost (requestURL c repo) body = none →
      env.sendRequest c
        { ctx := ctx, Method := MethodPost, URL := requestURL c repo, Body := body } {} =
          (d, some e) →
      CreateRepository env c ctx repo key =
        { result := {}, err := some e
          calls := [.jsonMarshal (uploadKeyPayload key),
                    .newRequestWithContext ctx MethodPost (requestURL c repo) body,
                    .sendRequest
                      { ctx := ctx, Method := MethodPost, URL := requestURL c repo,
                        Body := body }] }) ∧
    (CreateRepository env c ctx repo key).calls.countP Call.isSendRequest ≤ 1 := by
  refine ⟨CreateRepository_marshal_error env c ctx repo key e,
    fun body => CreateRepository_request_error env c ctx repo key body e,
    fun body d => CreateRepository_send_error env c ctx repo key body d e, ?_⟩
  rcases CreateRepository_calls env c ctx repo key with hc | ⟨b, _, hc | hc⟩ <;>
    rw [hc] <;> simp [List.countP_cons, Call.isSendRequest]

/-- Witness of C6: a serializer that fails, a request constructor that fails, and a
`sendRequest` that fails, each with its own error. -/
theorem C6_errors_propagate_witness :
    CreateRepository
        { jsonMarshal := fun _ => .error (.other "json: unsupported value"),
          newRequestErr := fun _ _ _ _ => none,
          sendRequest := fun _ _ v => (v, none) }
        exampleClient exampleCtx { ProjectKey := lit "PROJ", Repo := lit "repo" } exampleKey =
      { result := {}, err := some (.other "json: unsupported value"),
        calls := [.jsonMarshal (uploadKeyPayload exampleKey)] } ∧
    (CreateRepository
        { jsonMarshal := Marshal,
          newRequestErr := fun _ _ _ _ => some (.other "net/http: nil Context"),
          sendRequest := fun _ _ v => (v, none) }
        exampleClient exampleCtx { ProjectKey := lit "PROJ", Repo := lit "repo" }
        exampleKey).err = some (.other "net/http: nil Context") ∧
    (CreateRepository
        (stubEnv {} (some (.wrap "request failed" (.other "connection refused"))))
        exampleClient exampleCtx { ProjectKey := lit "PROJ", Repo := lit "repo" }
        exampleKey).err = some (.wrap "request failed" (.other "connection refused")) :=
  ⟨(C6_errors_propagate
      { jsonMarshal := fun _ => .error (.other "json: unsupported value"),
        newRequestErr := fun _ _ _ _ => none,
        sendRequest := fun _ _ v => (v, none) }
      exampleClient exampleCtx { ProjectKey := lit "PROJ", Repo := lit "repo" } exampleKey
      (.other "json: unsupported value")).1 rfl,
   congrArg Outcome.err
    ((C6_errors_propagate
      { jsonMarshal := Marshal,
        newRequestErr := fun _ _ _ _ => some (.other "net/http: nil Context"),
        sendRequest := fun _ _ v => (v, none) }
      exampleClient exampleCtx { ProjectKey := lit "PROJ", Repo := lit "repo" } exampleKey
      (.other "net/http: nil Context")).2.1 (uploadKeyPayload exampleKey).toJSON.encode
      rfl rfl),
   congrArg Outcome.err
    ((C6_errors_propagate
      (stubEnv {} (some (.wrap "request failed" (.other "connection refused"))))
      exampleClient exampleCtx { ProjectKey := lit "PROJ", Repo := lit "repo" } exampleKey
      (.wrap "request failed" (.other "connection refused"))).2.2.1
      (uploadKeyPayload exampleKey).toJSON.encode {} rfl rfl rfl)⟩

/-- C7, as stated, fails: for a key whose permission is the single byte `0xFF`, which is not
valid UTF-8, the body of the request sent has the permission `"\ufffd"`, a literal that
stands for U+FFFD (bytes `EF BF BD`) and not for the permission of the key. -/
theorem C7_counterexample :
    Call.sendRequest
        { ctx := exampleCtx, Method := lit "POST",
          URL := lit "https://git.example.com/rest/keys/1.0/projects/PROJ/repos/repo/ssh",
          Body := lit ("\x7b\"key\":\x7b\"text\":\"ssh-ed25519 AAAAC3Nz\",\"label\":\"ci\"\x7d," ++
            "\"permission\":\"\\ufffd\"\x7d") } ∈
      (CreateRepository
        { jsonMarshal := Marshal, newRequestErr := fun _ _ _ _ => none,
          sendRequest := fun _ _ v => (v, none) }
        exampleClient exampleCtx { ProjectKey := lit "PROJ", Repo := lit "repo" }
        { exampleKey with Permission := [0xFF] }).calls ∧
    appendString [0xFF] = lit "\"\\ufffd\"" ∧
    unquote (lit "\"\\ufffd\"") = some [0xEF, 0xBF, 0xBD] ∧
    unquote (appendString [0xFF]) ≠ some [0xFF] := by
  decide

/-- C7, amended: for every input key, `json.Marshal` turns the payload `{key: {text:
key.Key, label: key.Label}, permission: key.Permission}` into the text
`{"key":{"text":T,"label":L},"permission":P}` and nothing else, where `T`, `L` and `P` are
the string literals the library writes for `key.Key`, `key.Label` and `key.Permission`;
`CreateRepository` serializes that payload, builds the request with that text as its body
and, when the request could be built, sends it; whenever such a field is valid UTF-8 its
literal stands for exactly that string (the permission string is passed through unchanged);
and the body is the same for any client, context, repository and `ID` of the key. -/
theorem C7_request_body
    (newRequestErr : Context → GoString → GoString → GoString → Option GoError)
    (send : Client → Request → KeyDescription → KeyDescription × Option GoError)
    (c : Client) (ctx : Context) (repo : Repo) (key : AccessKey) :
    Marshal
        (.obj [(lit "key", .obj [(lit "text", .str key.Key), (lit "label", .str key.Label)]),
               (lit "permission", .str key.Permission)]) =
      .ok (lit "\x7b\"key\":\x7b\"text\":" ++ appendString key.Key ++ lit ",\"label\":" ++
        appendString key.Label ++ lit "\x7d,\"permission\":" ++
        appendString key.Permission ++ lit "\x7d") ∧
    (CreateRepository
        { jsonMarshal := Marshal, newRequestErr := newRequestErr, sendRequest := send }
        c ctx repo key).calls =
      [Call.jsonMarshal
         { Key := { Text := key.Key, Label := key.Label }, Permission := key.Permission },
       Call.newRequestWithContext ctx MethodPost (requestURL c repo)
         (lit "\x7b\"key\":\x7b\"text\":" ++ appendString key.Key ++ lit ",\"label\":" ++
           appendString key.Label ++ lit "\x7d,\"permission\":" ++
           appendString key.Permission ++ lit "\x7d")] ++
      (if newRequestErr ctx MethodPost (requestURL c repo)
            (lit "\x7b\"key\":\x7b\"text\":" ++ appendString key.Key ++ lit ",\"label\":" ++
              appendString key.Label ++ lit "\x7d,\"permission\":" ++
              appendString key.Permission ++ lit "\x7d") = none then
        [Call.sendRequest
          { ctx := ctx, Method := MethodPost, URL := requestURL c repo,
            Body := lit "\x7b\"key\":\x7b\"text\":" ++ appendString key.Key ++
              lit ",\"label\":" ++ appendString key.Label ++ lit "\x7d,\"permission\":" ++
              appendString key.Permission ++ lit "\x7d" }]
      else []) ∧
    (ValidString key.Key = true → unquote (appendString key.Key) = some key.Key) ∧
    (ValidString key.Label = true → unquote (appendString key.Label) = some key.Label) ∧
    (ValidString key.Permission = true →
      unquote (appendString key.Permission) = some key.Permission) ∧
    (∀ (newRequestErr2 : Context → GoString → GoString → GoString → Option GoError)
      (send2 : Client → Request → KeyDescription → KeyDescription × Option GoError)
      (c2 : Client) (ctx2 : Context) (repo2 : Repo) (id2 : Int),
      (∀ ctx1 method url body,
        Call.newRequestWithContext ctx1 method url body ∈
          (CreateRepository
            { jsonMarshal := Marshal, newRequestErr := newRequestErr2, sendRequest := send2 }
            c2 ctx2 repo2 { key with ID := id2 }).calls →
        body = lit "\x7b\"key\":\x7b\"text\":" ++ appendString key.Key ++ lit ",\"label\":" ++
          appendString key.Label ++ lit "\x7d,\"permission\":" ++
          appendString key.Permission ++ lit "\x7d") ∧
      (∀ req,
        Call.sendRequest req ∈
          (CreateRepository
            { jsonMarshal := Marshal, newRequestErr := newRequestErr2, sendRequest := send2 }
            c2 ctx2 repo2 { key with ID := id2 }).calls →
        req.Body = lit "\x7b\"key\":\x7b\"text\":" ++ appendString key.Key ++
          lit ",\"label\":" ++ appendString key.Label ++ lit "\x7d,\"permission\":" ++
          appendString key.Permission ++ lit "\x7d")) := by
  refine ⟨?_, CreateRepository_calls_marshal newRequestErr send c ctx repo key,
    appendString_roundtrip _, appendString_roundtrip _, appendString_roundtrip _, ?_⟩
  · exact congrArg Except.ok (payload_encode (uploadKeyPayload key))
  · intro newRequestErr2 send2 c2 ctx2 repo2 id2
    have hc := CreateRepository_calls_marshal newRequestErr2 send2 c2 ctx2 repo2
      { key with ID := id2 }
    constructor
    · intro ctx1 method url body h
      rw [hc] at h
      split_ifs at h <;> simp at h <;> exact h.2.2.2
    · intro req h
      rw [hc] at h
      split_ifs at h <;> simp at h
      subst h
      rfl

/-- Witness of C7, amended: the example key, whose fields are valid UTF-8; the request is
sent with the text of its payload as body, and the literal of its permission stands for
`REPO_READ`. -/
theorem C7_request_body_witness :
    (CreateRepository
        { jsonMarshal := Marshal, newRequestErr := fun _ _ _ _ => none,
          sendRequest := fun _ _ v => (v, none) }
        exampleClient exampleCtx { ProjectKey := lit "PROJ", Repo := lit "repo" }
        exampleKey).calls =
      [Call.jsonMarshal
         { Key := { Text := lit "ssh-ed25519 AAAAC3Nz", Label := lit "ci" },
           Permission := lit "REPO_READ" },
       Call.newRequestWithContext exampleCtx (lit "POST")
         (lit "https://git.example.com/rest/keys/1.0/projects/PROJ/repos/repo/ssh")
         (lit ("\x7b\"key\":\x7b\"text\":\"ssh-ed25519 AAAAC3Nz\",\"label\":\"ci\"\x7d," ++
           "\"permission\":\"REPO_READ\"\x7d")),
       Call.sendRequest
         { ctx := exampleCtx, Method := lit "POST",
           URL := lit "https://git.example.com/rest/keys/1.0/projects/PROJ/repos/repo/ssh",
           Body := lit ("\x7b\"key\":\x7b\"text\":\"ssh-ed25519 AAAAC3Nz\",\"label\":\"ci\"\x7d," ++
             "\"permission\":\"REPO_READ\"\x7d") }] ∧
    unquote (lit "\"REPO_READ\"") = some (lit "REPO_READ") :=
  ⟨(C7_request_body (fun _ _ _ _ => none) (fun _ _ v => (v, none)) exampleClient exampleCtx
      { ProjectKey := lit "PROJ", Repo := lit "repo" } exampleKey).2.1,
   (C7_request_body (fun _ _ _ _ => none) (fun _ _ v => (v, none)) exampleClient exampleCtx
      { ProjectKey := lit "PROJ", Repo := lit "repo" } exampleKey).2.2.2.2.1 (by decide)⟩

/-- C8: translating a key `k` into the upload payload and translating back a server
response built from that payload's field values with the id `n` gives `k` with only `ID`
changed to `n`, whatever repository the response names; and `CreateRepository`, serving the
key `k` against a server that answers with that response, returns this value with a nil
error. -/
theorem C8_round_trip (k : AccessKey) (n : Int) (r : RepositoryInfo) :
    accessKeyOf (echoResponse (uploadKeyPayload k) n r) = { k with ID := n } ∧
    (accessKeyOf (echoResponse (uploadKeyPayload k) n r)).Key = k.Key ∧
    (accessKeyOf (echoResponse (uploadKeyPayload k) n r)).Label = k.Label ∧
    (accessKeyOf (echoResponse (uploadKeyPayload k) n r)).Permission = k.Permission ∧
    (accessKeyOf (echoResponse (uploadKeyPayload k) n r)).ID = n ∧
    ∀ (env : Env) (c : Client) (ctx : Context) (repo : Repo) (body : GoString),
      env.jsonMarshal (uploadKeyPayload k).toJSON = .ok body →
      env.newRequestErr ctx MethodPost (requestURL c repo) body = none →
      env.sendRequest c
        { ctx := ctx, Method := MethodPost, URL := requestURL c repo, Body := body } {} =
          (echoResponse (uploadKeyPayload k) n r, none) →
      CreateRepository env c ctx repo k =
        { result := { k with ID := n }, err := none
          calls := [.jsonMarshal (uploadKeyPayload k),
                    .newRequestWithContext ctx MethodPost (requestURL c repo) body,
                    .sendRequest
                      { ctx := ctx, Method := MethodPost, URL := requestURL c repo,
                        Body := body }] } := by
  refine ⟨rfl, rfl, rfl, rfl, rfl, ?_⟩
  intro env c ctx repo body hm hr hs
  rw [CreateRepository_ok env c ctx repo k body _ hm hr hs]
  rfl

/-- Witness of C8: the example key against a stub server that answers with the payload's
field values and the id 7. -/
theorem C8_round_trip_witness :
    (CreateRepository
        (stubEnv (echoResponse (uploadKeyPayload exampleKey) 7
          { Name := lit "repo", ID := 3, Project := { Key := lit "PROJ" } }) none)
        exampleClient exampleCtx { ProjectKey := lit "PROJ", Repo := lit "repo" }
        exampleKey).result =
      { Key := lit "ssh-ed25519 AAAAC3Nz", Label := lit "ci", ID := 7,
        Permission := lit "REPO_READ" } :=
  congrArg Outcome.result
    ((C8_round_trip exampleKey 7
        { Name := lit "repo", ID := 3, Project := { Key := lit "PROJ" } }).2.2.2.2.2
      (stubEnv (echoResponse (uploadKeyPayload exampleKey) 7
        { Name := lit "repo", ID := 3, Project := { Key := lit "PROJ" } }) none)
      exampleClient exampleCtx { ProjectKey := lit "PROJ", Repo := lit "repo" }
      (uploadKeyPayload exampleKey).toJSON.encode rfl rfl rfl)

/-- C9, the code at the failing input: the input permission is `REPO_READ`, one of the two
recognized values, and the payload serialized carries it; the stub server answers with
success and the permission `REPO_ADMIN`; `CreateRepository` returns, with a nil error, an
`AccessKey` whose `Permission` is `REPO_ADMIN`, which is neither of the two recognized
values, against the comment on `AccessKey.Permission`. -/
theorem C9_returns_third_permission :
    isRecognizedPermission exampleKey.Permission ∧
    (CreateRepository
        (stubEnv { Key := { ID := 7, Text := exampleKey.Key, Label := exampleKey.Label },
                   Permission := lit "REPO_ADMIN" } none)
        exampleClient exampleCtx { ProjectKey := lit "PROJ", Repo := lit "repo" }
        exampleKey).calls.head? = some (Call.jsonMarshal
          { Key := { Text := exampleKey.Key, Label := exampleKey.Label },
            Permission := PermissionRepoRead }) ∧
    (CreateRepository
        (stubEnv { Key := { ID := 7, Text := exampleKey.Key, Label := exampleKey.Label },
                   Permission := lit "REPO_ADMIN" } none)
        exampleClient exampleCtx { ProjectKey := lit "PROJ", Repo := lit "repo" }
        exampleKey).err = none ∧
    (CreateRepository
        (stubEnv { Key := { ID := 7, Text := exampleKey.Key, Label := exampleKey.Label },
                   Permission := lit "REPO_ADMIN" } none)
        exampleClient exampleCtx { ProjectKey := lit "PROJ", Repo := lit "repo" }
        exampleKey).result.Permission = lit "REPO_ADMIN" ∧
    ¬ isRecognizedPermission
      (CreateRepository
        (stubEnv { Key := { ID := 7, Text := exampleKey.Key, Label := exampleKey.Label },
                   Permission := lit "REPO_ADMIN" } none)
        exampleClient exampleCtx { ProjectKey := lit "PROJ", Repo := lit "repo" }
        exampleKey).result.Permission := by
  unfold isRecognizedPermission
  decide

/-- C10: `NewClient(c)` has the token and base URL of `c`, and its HTTP client, the only
one built, has a transport whose TLS configuration is `c.TLSConfig` itself, nil included;
`NewRepositoryClient(c)` is `NewClient(c)` held in the interface `git.KeyClientAPI`, and
calling `CreateRepository` through the interface is calling it on `NewClient(c)`. -/
theorem C10_new_client (c : Config) :
    (NewClient c).Token = c.Token ∧
    (NewClient c).BaseURL = c.BaseURL ∧
    (NewClient c).HTTPClient.Transport.TLSClientConfig = c.TLSConfig ∧
    (NewClient { c with TLSConfig := none }).HTTPClient.Transport.TLSClientConfig = none ∧
    NewRepositoryClient c = .restClient (NewClient c) ∧
    ∀ (env : Env) (ctx : Context) (repo : Repo) (key : AccessKey),
      (NewRepositoryClient c).CreateRepository env ctx repo key =
        CreateRepository env (NewClient c) ctx repo key := by
  refine ⟨rfl, rfl, rfl, rfl, rfl, ?_⟩
  intro env ctx repo key
  rfl

end ProviderGit
